import Mathlib

/-!
Verification of the laser-rs LBRN2-to-SVG converter core.

This file shallowly embeds the Rust sources (`src/types.rs`, `src/parser.rs`,
`src/bounds.rs`, `src/path.rs`, `src/lbrn2/style.rs`) in Lean 4 and proves the
frozen specification claims about them.

Numeric model: the Rust code computes with `f64`.  We model values at rest
(parsed coordinates, transform coefficients) as exact rationals `ℚ`, and the
analytic bounds computations (which use `sqrt`, `sin`, `cos`, `π`) over the
reals `ℝ` via the canonical cast.  Floating-point rounding is out of scope;
all claims settled here are about the exact-arithmetic semantics of the code.

String model: Rust `String`/`&str` is modelled by Lean `String`; character
scanning is performed on `String.data` (the underlying `List Char`).
-/

namespace Laser

/-- 2D vertex with optional Bezier control points (src/types.rs `Vec2`). -/
structure Vec2 where
  x : ℚ
  y : ℚ
  c0x : Option ℚ
  c0y : Option ℚ
  c1x : Option ℚ
  c1y : Option ℚ
deriving DecidableEq

/-- `Vec2::new` (src/types.rs). -/
def Vec2.new (x y : ℚ) : Vec2 := ⟨x, y, none, none, none, none⟩

/-- `Vec2::with_control_points` (src/types.rs). -/
def Vec2.with_control_points (x y : ℚ) (c0x c0y c1x c1y : Option ℚ) : Vec2 :=
  ⟨x, y, c0x, c0y, c1x, c1y⟩

/-- 2D affine transform `[a, b, c, d, e, f]` = `[[a,c,e],[b,d,f],[0,0,1]]`
(src/types.rs `XForm`). -/
structure XForm where
  a : ℚ
  b : ℚ
  c : ℚ
  d : ℚ
  e : ℚ
  f : ℚ
deriving DecidableEq

/-- `XForm::identity` (src/types.rs). -/
def XForm.identity : XForm := ⟨1, 0, 0, 1, 0, 0⟩

/-- `XForm::compose` (src/types.rs): `self * other`, i.e. apply `other` first. -/
def XForm.compose (s o : XForm) : XForm :=
  { a := s.a * o.a + s.c * o.b
    b := s.b * o.a + s.d * o.b
    c := s.a * o.c + s.c * o.d
    d := s.b * o.c + s.d * o.d
    e := s.a * o.e + s.c * o.f + s.e
    f := s.b * o.e + s.d * o.f + s.f }

/-- `XForm::transform_point` (src/types.rs). -/
def XForm.transform_point (t : XForm) (x y : ℚ) : ℚ × ℚ :=
  (t.a * x + t.c * y + t.e, t.b * x + t.d * y + t.f)

/-- `CutSetting` (src/types.rs). -/
structure CutSetting where
  index : Int
  name : String
  color : Option String
  stroke_width : Option String
deriving DecidableEq

/-- `PathPrimitive` (src/types.rs). -/
inductive PathPrimitive where
  | Line (start_idx end_idx : Nat)
  | Bezier (start_idx end_idx : Nat)
deriving DecidableEq

/-- Rectangle shape (src/types.rs `Rect`). -/
structure Rect where
  cut_index : Int
  xform : XForm
  w : ℚ
  h : ℚ
  cr : ℚ
deriving DecidableEq

/-- Ellipse shape (src/types.rs `Ellipse`). -/
structure Ellipse where
  cut_index : Int
  xform : XForm
  rx : ℚ
  ry : ℚ
deriving DecidableEq

/-- Path shape (src/types.rs `Path`). -/
structure Path where
  cut_index : Int
  xform : XForm
  vert_list : String
  prim_list : String
  parsed_verts : List Vec2
  parsed_primitives : List PathPrimitive
deriving DecidableEq

/-- Bitmap shape (src/types.rs `Bitmap`). -/
structure Bitmap where
  cut_index : Int
  xform : XForm
  w : ℚ
  h : ℚ
  data : String
deriving DecidableEq

/-- `Shape` (src/types.rs).  The `Group` struct of the source is inlined into
the constructor because its `children` field is a nested `List Shape`. -/
inductive Shape where
  | Rect (r : Rect)
  | Ellipse (e : Ellipse)
  | Path (p : Path)
  | Bitmap (b : Bitmap)
  | Group (cut_index : Int) (xform : XForm) (children : List Shape)

/-- `Shape::xform` accessor (src/types.rs). -/
def Shape.xform : Shape → XForm
  | .Rect r => r.xform
  | .Ellipse e => e.xform
  | .Path p => p.xform
  | .Bitmap b => b.xform
  | .Group _ x _ => x

/-- `Shape::cut_index` accessor (src/types.rs). -/
def Shape.cut_index : Shape → Int
  | .Rect r => r.cut_index
  | .Ellipse e => e.cut_index
  | .Path p => p.cut_index
  | .Bitmap b => b.cut_index
  | .Group ci _ _ => ci

/-- Parsed project (src/types.rs `LightBurnProject`). -/
structure LightBurnProject where
  app_version : String
  format_version : String
  cut_settings : List CutSetting
  shapes : List Shape

/-! ## Style emitter (src/lbrn2/style.rs) -/

/-- `DEFAULT_COLORS` (src/lbrn2/style.rs). -/
def DEFAULT_COLORS : List String :=
  ["#000000", "#FF0000", "#00AA00", "#0000FF", "#FF9900", "#9900FF", "#00AAAA", "#AAAA00"]

/-- `get_cut_setting_style` (src/lbrn2/style.rs).  The source indexes the
palette array at `index % 8`, always in bounds; `List.getD` with an arbitrary
default models that total array access. -/
def get_cut_setting_style (cut_index : Int) (cut_settings : Option (List CutSetting)) : String :=
  match cut_settings with
  | none => "stroke:#000000;stroke-width:0.050000mm;fill:none"
  | some cs =>
    if cs.isEmpty then "stroke:#000000;stroke-width:0.050000mm;fill:none"
    else
      let found := cs.find? (fun c => c.index == cut_index)
      let color :=
        match found with
        | some c =>
          match c.color with
          | some col => col
          | none =>
            let palette_idx : Nat := if 0 ≤ c.index then c.index.toNat % 8 else 0
            DEFAULT_COLORS.getD palette_idx "#000000"
        | none => "#000000"
      let stroke_width := (found.bind (fun c => c.stroke_width)).getD "0.050000mm"
      "stroke:" ++ color ++ ";stroke-width:" ++ stroke_width ++ ";fill:none"

/-! ## Numeric literal parsing (model of Rust `str::parse::<f64>` / `::<i32>`) -/

/-- Numeric value of a list of decimal digit characters. -/
def digitsVal (l : List Char) : Nat :=
  l.foldl (fun acc c => acc * 10 + (c.toNat - '0'.toNat)) 0

/-- Split a leading `+`/`-` sign, returning the sign as `1` or `-1`. -/
def splitSign : List Char → Int × List Char
  | '-' :: r => (-1, r)
  | '+' :: r => (1, r)
  | l => (1, l)

/-- Exponent suffix after `e`/`E`: optional sign then at least one digit,
consuming the whole remaining input. -/
def parseExpSuffix (l : List Char) : Option Int :=
  let (sgn, r) := splitSign l
  let ds := r.takeWhile Char.isDigit
  let r2 := r.dropWhile Char.isDigit
  if ds.isEmpty || !r2.isEmpty then none
  else some (sgn * (digitsVal ds : Int))

/-- The syntactic pieces of a decimal/scientific float literal: sign, integral
digits, fractional digits, exponent. -/
structure FloatParts where
  sign : Int
  ip : List Char
  fp : List Char
  ex : Int
deriving DecidableEq

/-- Exact rational value of the pieces of a float literal. -/
def floatVal (p : FloatParts) : ℚ :=
  (p.sign : ℚ) * ((digitsVal p.ip : ℚ) + (digitsVal p.fp : ℚ) / 10 ^ p.fp.length) * 10 ^ p.ex

/-- Mantissa digits plus optional exponent tail. -/
def finishFloat (sgn : Int) (ip fp : List Char) : List Char → Option FloatParts
  | [] => some ⟨sgn, ip, fp, 0⟩
  | 'e' :: r => (parseExpSuffix r).map fun ex => ⟨sgn, ip, fp, ex⟩
  | 'E' :: r => (parseExpSuffix r).map fun ex => ⟨sgn, ip, fp, ex⟩
  | _ => none

/-- Syntactic recognizer for Rust float literals:
`[+-]? (D+ | D+ '.' D* | '.' D+) ([eE] [+-]? D+)?`. -/
def rustParseFloatParts (s : String) : Option FloatParts :=
  let (sgn, r0) := splitSign s.data
  let ip := r0.takeWhile Char.isDigit
  let r1 := r0.dropWhile Char.isDigit
  match r1 with
  | '.' :: r2 =>
    let fp := r2.takeWhile Char.isDigit
    let r3 := r2.dropWhile Char.isDigit
    if ip.isEmpty && fp.isEmpty then none
    else finishFloat sgn ip fp r3
  | _ =>
    if ip.isEmpty then none
    else finishFloat sgn ip [] r1

/-- Model of Rust `str::parse::<f64>()` on finite decimal/scientific literals,
valued exactly in `ℚ`.  Non-finite literals (`inf`, `NaN`) are outside the
exact-rational model. -/
def rustParseFloat (s : String) : Option ℚ :=
  (rustParseFloatParts s).map floatVal

/-- Model of Rust `str::parse::<i32>()`: `[+-]? D+` consuming the whole string,
with the i32 range check (overflow is an error). -/
def rustParseInt (s : String) : Option Int :=
  let (sgn, r) := splitSign s.data
  let ds := r.takeWhile Char.isDigit
  let r2 := r.dropWhile Char.isDigit
  if ds.isEmpty || !r2.isEmpty then none
  else
    let v : Int := sgn * (digitsVal ds : Int)
    if v < -(2 ^ 31) || 2 ^ 31 - 1 < v then none else some v

/-- Accumulating scanner for `split_whitespace` over the character list. -/
def splitWsGo : List Char → List Char → List String
  | [], acc => if acc.isEmpty then [] else [String.mk acc.reverse]
  | c :: r, acc =>
    if c.isWhitespace then
      if acc.isEmpty then splitWsGo r [] else String.mk acc.reverse :: splitWsGo r []
    else splitWsGo r (c :: acc)

/-- Model of Rust `str::split_whitespace`: maximal runs of non-whitespace
characters, in order. -/
def splitWhitespace (s : String) : List String := splitWsGo s.data []

/-! ## Vertex-list decoder (src/parser.rs) -/

/-- Character class of the numeral scanner in `parse_vert_list` and
`parse_control_point_data`: `-`, `+`, ASCII digit, `.`, `e`, `E`. -/
def isNumChar (c : Char) : Bool :=
  c == '-' || c == '+' || c.isDigit || c == '.' || c == 'e' || c == 'E'

lemma length_dropWhile_le {α : Type} (p : α → Bool) (l : List α) :
    (l.dropWhile p).length ≤ l.length := by
  induction l with
  | nil => simp [List.dropWhile]
  | cons a t ih =>
    rw [List.dropWhile_cons]
    cases h : p a
    · simp
    · simp only [if_pos]
      exact le_trans ih (Nat.le_succ _)

/-- Structural model of `str::trim` on the character list. -/
def trimChars (l : List Char) : List Char :=
  ((l.dropWhile Char.isWhitespace).reverse.dropWhile Char.isWhitespace).reverse

/-- Does the character list start with `c` (the `starts_with('c')` guard of
`parse_control_point_data`)? -/
def startsWithC : List Char → Bool
  | 'c' :: _ => true
  | _ => false

/-- Inner loop of `parse_control_point_data` (src/parser.rs): scan for the keys
`c0x`/`c0y`/`c1x`/`c1y`, each followed by a numeral; an unparseable numeral
leaves the field unchanged; any other character is skipped. -/
def cpGo : List Char → Option ℚ × Option ℚ × Option ℚ × Option ℚ →
    Option ℚ × Option ℚ × Option ℚ × Option ℚ
  | [], st => st
  | 'c' :: '0' :: 'x' :: r, (c0x, c0y, c1x, c1y) =>
    match rustParseFloat (String.mk (r.takeWhile isNumChar)) with
    | some v => cpGo (r.dropWhile isNumChar) (some v, c0y, c1x, c1y)
    | none => cpGo (r.dropWhile isNumChar) (c0x, c0y, c1x, c1y)
  | 'c' :: '0' :: 'y' :: r, (c0x, c0y, c1x, c1y) =>
    match rustParseFloat (String.mk (r.takeWhile isNumChar)) with
    | some v => cpGo (r.dropWhile isNumChar) (c0x, some v, c1x, c1y)
    | none => cpGo (r.dropWhile isNumChar) (c0x, c0y, c1x, c1y)
  | 'c' :: '1' :: 'x' :: r, (c0x, c0y, c1x, c1y) =>
    match rustParseFloat (String.mk (r.takeWhile isNumChar)) with
    | some v => cpGo (r.dropWhile isNumChar) (c0x, c0y, some v, c1y)
    | none => cpGo (r.dropWhile isNumChar) (c0x, c0y, c1x, c1y)
  | 'c' :: '1' :: 'y' :: r, (c0x, c0y, c1x, c1y) =>
    match rustParseFloat (String.mk (r.takeWhile isNumChar)) with
    | some v => cpGo (r.dropWhile isNumChar) (c0x, c0y, c1x, some v)
    | none => cpGo (r.dropWhile isNumChar) (c0x, c0y, c1x, c1y)
  | _ :: r, st => cpGo r st
termination_by l _ => l.length
decreasing_by
  all_goals simp_wf
  all_goals first
    | omega
    | (exact lt_of_le_of_lt (length_dropWhile_le _ _) (by omega))

/-- `parse_control_point_data` (src/parser.rs). -/
def parse_control_point_data (cp : String) :
    Option ℚ × Option ℚ × Option ℚ × Option ℚ :=
  if startsWithC cp.data then cpGo cp.data (none, none, none, none)
  else (none, none, none, none)

/-- Main loop of `parse_vert_list` (src/parser.rs).  At each `V`: skip
whitespace, scan the x numeral, skip whitespace, scan the y numeral, collect
the control-point suffix up to the next `V`; a token whose x or y numeral
string is empty is dropped, otherwise the numerals are parsed with a `0.0`
fallback (`unwrap_or`). -/
def pvGo : List Char → List Vec2
  | [] => []
  | ch :: rest =>
    if ch.isWhitespace then pvGo rest
    else if ch == 'V' then
      let r1 := rest.dropWhile Char.isWhitespace
      let xs := r1.takeWhile isNumChar
      let r2 := r1.dropWhile isNumChar
      let r3 := r2.dropWhile Char.isWhitespace
      let ys := r3.takeWhile isNumChar
      let r4 := r3.dropWhile isNumChar
      let cp := r4.takeWhile (fun c => c != 'V')
      let r5 := r4.dropWhile (fun c => c != 'V')
      if xs.isEmpty || ys.isEmpty then pvGo r5
      else
        let x : ℚ := (rustParseFloat (String.mk xs)).getD 0
        let y : ℚ := (rustParseFloat (String.mk ys)).getD 0
        match parse_control_point_data (String.mk (trimChars cp)) with
        | (c0x, c0y, c1x, c1y) =>
          Vec2.with_control_points x y c0x c0y c1x c1y :: pvGo r5
    else pvGo rest
termination_by l => l.length
decreasing_by
  all_goals simp_wf
  all_goals first
    | omega
    | (exact Nat.lt_succ_of_le
        (le_trans (length_dropWhile_le _ _)
          (le_trans (length_dropWhile_le _ _)
            (le_trans (length_dropWhile_le _ _)
              (le_trans (length_dropWhile_le _ _) (length_dropWhile_le _ _))))))

/-- `parse_vert_list` (src/parser.rs). -/
def parse_vert_list (s : String) : List Vec2 := pvGo s.data

/-! ## Primitive-list decoder (src/parser.rs `parse_prim_list`) -/

/-- `parse_next_int` (src/parser.rs): skip whitespace, scan digits, parse as
`usize` (overflow is a parse error). -/
def parseNextInt (l : List Char) : Option Nat × List Char :=
  if (List.takeWhile Char.isDigit (l.dropWhile Char.isWhitespace)).isEmpty then
    (none, List.dropWhile Char.isDigit (l.dropWhile Char.isWhitespace))
  else if digitsVal (List.takeWhile Char.isDigit (l.dropWhile Char.isWhitespace)) < 2 ^ 64 then
    (some (digitsVal (List.takeWhile Char.isDigit (l.dropWhile Char.isWhitespace))),
      List.dropWhile Char.isDigit (l.dropWhile Char.isWhitespace))
  else (none, List.dropWhile Char.isDigit (l.dropWhile Char.isWhitespace))

/-- Collect up to `k` integers, stopping at the first failure (the `for _ in
0..4` loop of `parse_prim_list`). -/
def collectArgs : Nat → List Char → List Nat × List Char
  | 0, l => ([], l)
  | k + 1, l =>
    match (parseNextInt l).1 with
    | some n =>
      (n :: (collectArgs k (parseNextInt l).2).1, (collectArgs k (parseNextInt l).2).2)
    | none => ([], (parseNextInt l).2)

lemma parseNextInt_length_le (l : List Char) : (parseNextInt l).2.length ≤ l.length := by
  unfold parseNextInt
  split
  · exact le_trans (length_dropWhile_le _ _) (length_dropWhile_le _ _)
  · split <;> exact le_trans (length_dropWhile_le _ _) (length_dropWhile_le _ _)

lemma collectArgs_length_le : ∀ (k : Nat) (l : List Char), (collectArgs k l).2.length ≤ l.length
  | 0, l => le_refl _
  | k + 1, l => by
    rw [collectArgs]
    cases hpi : (parseNextInt l).1 with
    | some n =>
      exact le_trans (collectArgs_length_le k (parseNextInt l).2) (parseNextInt_length_le l)
    | none => exact parseNextInt_length_le l

/-- Main loop of `parse_prim_list` (src/parser.rs): single-letter opcodes
followed by up to 4 integers; only `L` and `B` with at least two arguments
emit a primitive; non-alphabetic characters are skipped one at a time.
(`is_alphabetic` is modelled as ASCII `isAlpha`.) -/
def pplGo : List Char → List PathPrimitive
  | [] => []
  | c :: r =>
    if c.isWhitespace then pplGo r
    else if !c.isAlpha then pplGo r
    else
      match c, (collectArgs 4 r).1 with
      | 'L', a0 :: a1 :: _ => .Line a0 a1 :: pplGo (collectArgs 4 r).2
      | 'B', a0 :: a1 :: _ => .Bezier a0 a1 :: pplGo (collectArgs 4 r).2
      | _, _ => pplGo (collectArgs 4 r).2
termination_by l => l.length
decreasing_by
  all_goals simp_wf
  all_goals first
    | omega
    | (exact Nat.lt_succ_of_le (collectArgs_length_le 4 _))

/-- `parse_prim_list` (src/parser.rs). -/
def parse_prim_list (s : String) : List PathPrimitive := pplGo s.data

/-! ## Transform-string parsing (src/parser.rs `parse_xform`) -/

/-- The source's length-6 check and positional indexing into the parsed parts. -/
def xformOfParts : List ℚ → XForm
  | [a, b, c, d, e, f] => ⟨a, b, c, d, e, f⟩
  | _ => XForm.identity

/-- `parse_xform` (src/parser.rs): split on whitespace, keep the tokens that
parse as floats (`filter_map`), and build the transform when exactly 6 floats
result, otherwise the identity. -/
def parse_xform (s : String) : XForm :=
  xformOfParts ((splitWhitespace s).filterMap rustParseFloat)

/-! ## Path-data emitter (src/path.rs)

The Rust functions take a `&mut Vec<String>` diagnostics log; the log lines are
not modelled (the claims are about the returned `d` string only). -/

/-- Decimal digit character. -/
def digitChar : Nat → Char
  | 0 => '0'
  | 1 => '1'
  | 2 => '2'
  | 3 => '3'
  | 4 => '4'
  | 5 => '5'
  | 6 => '6'
  | 7 => '7'
  | 8 => '8'
  | 9 => '9'
  | _ => '*'

/-- The six decimal digits of `m % 10^6`, most significant first: the
zero-padded fractional part of `{:.6}` formatting. -/
def fracPart (m : Nat) : List Char :=
  [digitChar (m / 100000 % 10), digitChar (m / 10000 % 10), digitChar (m / 1000 % 10),
    digitChar (m / 100 % 10), digitChar (m / 10 % 10), digitChar (m % 10)]

/-- Model of the 6-decimal formatter `f` (src/path.rs): round the exact value
to 6 decimal places and print sign, integer digits, `.`, six fractional
digits. -/
def fmt6 (q : ℚ) : String :=
  let n : Int := round (q * 1000000)
  (if n < 0 then "-" else "") ++ String.mk (Nat.toDigits 10 (n.natAbs / 1000000)) ++
    "." ++ String.mk (fracPart (n.natAbs % 1000000))

/-- Loop state of `generate_path_data` (src/path.rs): the `d` string and the
`first_move_to_idx` / `current_last_idx` trackers. -/
structure EmitState where
  d : String
  first_move_to_idx : Option Nat
  current_last_idx : Option Nat

/-- The move-to handling shared by every emitted segment (src/path.rs): an `M`
is emitted on the first segment or when the chain is broken. -/
def movePrefix (p0 : Vec2) (idx0 : Nat) (st : EmitState) : String :=
  if st.first_move_to_idx.isNone then
    st.d ++ "M" ++ fmt6 p0.x ++ "," ++ fmt6 p0.y
  else if st.current_last_idx == some idx0 then st.d
  else st.d ++ " M" ++ fmt6 p0.x ++ "," ++ fmt6 p0.y

/-- `first_move_to_idx` update: set on the first emitted segment only. -/
def updFirst (idx0 : Nat) (st : EmitState) : Option Nat :=
  if st.first_move_to_idx.isNone then some idx0 else st.first_move_to_idx

/-- Emission of a line segment (the `L` case and the Bezier
missing-control-point fallback of src/path.rs). -/
def emitLineSeg (p0 p1 : Vec2) (idx0 idx1 : Nat) (st : EmitState) : EmitState :=
  { d := movePrefix p0 idx0 st ++ " L" ++ fmt6 p1.x ++ "," ++ fmt6 p1.y
    first_move_to_idx := updFirst idx0 st
    current_last_idx := some idx1 }

/-- One iteration of the primitive loop of `generate_path_data` (src/path.rs).
Out-of-range indices skip the primitive; a Bezier with a missing control point
degrades to a line segment. -/
def stepPrim (verts : List Vec2) (st : EmitState) : PathPrimitive → EmitState
  | .Line idx0 idx1 =>
    if idx0 < verts.length && idx1 < verts.length then
      emitLineSeg (verts.getD idx0 (Vec2.new 0 0)) (verts.getD idx1 (Vec2.new 0 0)) idx0 idx1 st
    else st
  | .Bezier idx0 idx1 =>
    if idx0 < verts.length && idx1 < verts.length then
      let p0 := verts.getD idx0 (Vec2.new 0 0)
      let p1 := verts.getD idx1 (Vec2.new 0 0)
      if p0.c0x.isNone || p0.c0y.isNone || p1.c1x.isNone || p1.c1y.isNone then
        emitLineSeg p0 p1 idx0 idx1 st
      else
        { d := movePrefix p0 idx0 st ++ " C" ++ fmt6 (p0.c0x.getD 0) ++ "," ++
            fmt6 (p0.c0y.getD 0) ++ " " ++ fmt6 (p1.c1x.getD 0) ++ "," ++
            fmt6 (p1.c1y.getD 0) ++ " " ++ fmt6 p1.x ++ "," ++ fmt6 p1.y
          first_move_to_idx := updFirst idx0 st
          current_last_idx := some idx1 }
    else st

/-- `generate_line_closed_path` (src/path.rs). -/
def generate_line_closed_path (p : Path) : String :=
  match p.parsed_verts with
  | [] => ""
  | [v] => "M" ++ fmt6 v.x ++ "," ++ fmt6 v.y ++ "Z"
  | v :: rest =>
    (rest.foldl (fun d w => d ++ " L" ++ fmt6 w.x ++ "," ++ fmt6 w.y)
      ("M" ++ fmt6 v.x ++ "," ++ fmt6 v.y)).push 'Z'

/-- `generate_path_data` (src/path.rs). -/
def generate_path_data (p : Path) : String :=
  if p.prim_list == "LineClosed" then generate_line_closed_path p
  else if p.parsed_primitives.isEmpty || p.parsed_verts.isEmpty then ""
  else
    let st := p.parsed_primitives.foldl (stepPrim p.parsed_verts) ⟨"", none, none⟩
    match st.first_move_to_idx, st.current_last_idx with
    | some first, some last =>
      if first == last && !st.d.isEmpty then st.d.push 'Z' else st.d
    | _, _ => st.d

/-! ## Stream-XML shape-tree builder (src/parser.rs)

`parse_lbrn2_complete` consumes a stream of `quick_xml` events.  The XML
reader is external; it is modelled by a list of abstract events (the reader's
only other behaviour, a fatal well-formedness error, aborts the whole parse in
the source and is outside this model).  Every loop of the source runs on fuel,
decremented at each consumed event; the claims are proved for every fuel. -/

/-- Abstract `quick_xml` event. -/
inductive XmlEvent where
  | start (name : String) (attrs : List (String × String))
  | empty (name : String) (attrs : List (String × String))
  | text (s : String)
  | endTag (name : String)

/-- The shape attributes captured from a `Shape`/`BackupPath` element
(src/parser.rs, attribute loops of `parse_lbrn2_complete` /
`parse_shape_inner`). -/
structure ShapeAttrs where
  shape_type : String
  cut_index : Int
  w : ℚ
  h : ℚ
  cr : ℚ
  rx : ℚ
  ry : ℚ
  vert_id : Option Int
  prim_id : Option Int
  has_backup_path : Bool
  data_attr : String

/-- Initial values of the shape-attribute variables. -/
def initShapeAttrs : ShapeAttrs := ⟨"", 0, 0, 0, 0, 0, 0, none, none, false, ""⟩

/-- One attribute of the `Shape` attribute loop. -/
def applyShapeAttr (st : ShapeAttrs) (kv : String × String) : ShapeAttrs :=
  if kv.1 == "Type" then { st with shape_type := kv.2 }
  else if kv.1 == "CutIndex" then { st with cut_index := (rustParseInt kv.2).getD 0 }
  else if kv.1 == "W" then { st with w := (rustParseFloat kv.2).getD 0 }
  else if kv.1 == "H" then { st with h := (rustParseFloat kv.2).getD 0 }
  else if kv.1 == "Cr" then { st with cr := (rustParseFloat kv.2).getD 0 }
  else if kv.1 == "Rx" then { st with rx := (rustParseFloat kv.2).getD 0 }
  else if kv.1 == "Ry" then { st with ry := (rustParseFloat kv.2).getD 0 }
  else if kv.1 == "VertID" then { st with vert_id := rustParseInt kv.2 }
  else if kv.1 == "PrimID" then { st with prim_id := rustParseInt kv.2 }
  else if kv.1 == "HasBackupPath" then { st with has_backup_path := kv.2 == "1" }
  else if kv.1 == "Data" then { st with data_attr := kv.2 }
  else st

/-- The whole `Shape` attribute loop. -/
def readShapeAttrs (attrs : List (String × String)) : ShapeAttrs :=
  attrs.foldl applyShapeAttr initShapeAttrs

/-- The attributes read by `parse_shape_from_empty_element` (src/parser.rs):
only `Type`, `CutIndex`, `W`, `H`, `Cr`, `Rx`, `Ry`. -/
structure EmptyAttrs where
  shape_type : String
  cut_index : Int
  w : ℚ
  h : ℚ
  cr : ℚ
  rx : ℚ
  ry : ℚ

/-- One attribute of the `parse_shape_from_empty_element` loop. -/
def applyEmptyAttr (st : EmptyAttrs) (kv : String × String) : EmptyAttrs :=
  if kv.1 == "Type" then { st with shape_type := kv.2 }
  else if kv.1 == "CutIndex" then { st with cut_index := (rustParseInt kv.2).getD 0 }
  else if kv.1 == "W" then { st with w := (rustParseFloat kv.2).getD 0 }
  else if kv.1 == "H" then { st with h := (rustParseFloat kv.2).getD 0 }
  else if kv.1 == "Cr" then { st with cr := (rustParseFloat kv.2).getD 0 }
  else if kv.1 == "Rx" then { st with rx := (rustParseFloat kv.2).getD 0 }
  else if kv.1 == "Ry" then { st with ry := (rustParseFloat kv.2).getD 0 }
  else st

/-- The whole attribute loop of `parse_shape_from_empty_element`. -/
def emptyAttrsOf (attrs : List (String × String)) : EmptyAttrs :=
  attrs.foldl applyEmptyAttr ⟨"", 0, 0, 0, 0, 0, 0⟩

/-- `parse_shape_from_empty_element` (src/parser.rs): a self-closing `Shape`
element yields a `Rect` or `Ellipse` with the identity transform, and nothing
for any other `Type`. -/
def parse_shape_from_empty_element (attrs : List (String × String)) : Option Shape :=
  match (emptyAttrsOf attrs).shape_type with
  | "Rect" =>
    some (.Rect ⟨(emptyAttrsOf attrs).cut_index, XForm.identity, (emptyAttrsOf attrs).w,
      (emptyAttrsOf attrs).h, (emptyAttrsOf attrs).cr⟩)
  | "Ellipse" =>
    some (.Ellipse ⟨(emptyAttrsOf attrs).cut_index, XForm.identity, (emptyAttrsOf attrs).rx,
      (emptyAttrsOf attrs).ry⟩)
  | _ => none

/-- The vertex/primitive backreference caches, as association lists with
newest-first insertion (`HashMap::insert` overwrites; `find?` takes the newest
entry). -/
structure Caches where
  vertex_cache : List (Int × String × List Vec2)
  primitive_cache : List (Int × String × List PathPrimitive)

/-- Cache lookup (first, i.e. newest, matching key). -/
def cacheLookup {α : Type} (c : List (Int × α)) (k : Int) : Option α :=
  (c.find? (fun e => e.1 == k)).map (fun e => e.2)

/-- The `index` attribute scan of `parse_cut_setting_inner`: every `Value`
attribute overwrites the running index. -/
def readIndexAttr (attrs : List (String × String)) (cur : Int) : Int :=
  attrs.foldl (fun acc kv => if kv.1 == "Value" then (rustParseInt kv.2).getD 0 else acc) cur

/-- `parse_cut_setting_inner` loop (src/parser.rs): track the element depth,
update the index from any `index` element's `Value` attribute, and stop at the
matching end tag (or end of stream).  Returns the index and the remaining
events. -/
def parseCutSettingInner : Nat → Int → Nat → List XmlEvent → Int × List XmlEvent
  | 0, idx, _, evs => (idx, evs)
  | _ + 1, idx, _, [] => (idx, [])
  | fuel + 1, idx, depth, ev :: rest =>
    match ev with
    | .start tag attrs =>
      parseCutSettingInner fuel (if tag == "index" then readIndexAttr attrs idx else idx)
        (depth + 1) rest
    | .empty tag attrs =>
      parseCutSettingInner fuel (if tag == "index" then readIndexAttr attrs idx else idx)
        depth rest
    | .text _ => parseCutSettingInner fuel idx depth rest
    | .endTag _ =>
      if depth = 1 then (idx, rest) else parseCutSettingInner fuel idx (depth - 1) rest

/-- The mutable state of the `parse_shape_inner` loop (src/parser.rs). -/
structure ShapeParseState where
  xform : XForm
  vert_list : String
  prim_list : String
  data : String
  children : List Shape
  backup_path_shape : Option Shape
  current_tag : String
  in_children : Bool
  in_backup_path : Bool

/-- Initial loop state; `data` starts from the `Data` attribute. -/
def initShapeState (a : ShapeAttrs) : ShapeParseState :=
  ⟨XForm.identity, "", "", a.data_attr, [], none, "", false, false⟩

/-- The tail of `parse_shape_inner` (src/parser.rs): backup-path substitution
for `Text` shapes, `VertID`/`PrimID` cache resolution, and construction of the
shape by `Type`.  Returns the shape (if any) and the updated caches. -/
def finishShape (a : ShapeAttrs) (st : ShapeParseState) (c : Caches) :
    Option Shape × Caches :=
  if a.shape_type == "Text" && a.has_backup_path && st.backup_path_shape.isSome then
    (st.backup_path_shape, c)
  else
    let rv :=
      if !st.vert_list.isEmpty then
        (parse_vert_list st.vert_list, st.vert_list)
      else
        match a.vert_id with
        | some vid =>
          match cacheLookup c.vertex_cache vid with
          | some (vl, verts) => (verts, vl)
          | none => ([], "")
        | none => ([], "")
    let vc :=
      if !st.vert_list.isEmpty then
        match a.vert_id with
        | some vid => (vid, st.vert_list, parse_vert_list st.vert_list) :: c.vertex_cache
        | none => c.vertex_cache
      else c.vertex_cache
    let rp :=
      if !st.prim_list.isEmpty then
        (if st.prim_list == "LineClosed" then [] else parse_prim_list st.prim_list,
          st.prim_list)
      else
        match a.prim_id with
        | some pid =>
          match cacheLookup c.primitive_cache pid with
          | some (pl, prims) => (prims, pl)
          | none => ([], "")
        | none => ([], "")
    let pc :=
      if !st.prim_list.isEmpty then
        match a.prim_id with
        | some pid =>
          (pid, st.prim_list,
            if st.prim_list == "LineClosed" then [] else parse_prim_list st.prim_list) ::
            c.primitive_cache
        | none => c.primitive_cache
      else c.primitive_cache
    let c2 : Caches := ⟨vc, pc⟩
    if a.shape_type == "Rect" then (some (.Rect ⟨a.cut_index, st.xform, a.w, a.h, a.cr⟩), c2)
    else if a.shape_type == "Ellipse" then
      (some (.Ellipse ⟨a.cut_index, st.xform, a.rx, a.ry⟩), c2)
    else if a.shape_type == "Path" then
      if rv.1.isEmpty then (none, c2)
      else (some (.Path ⟨a.cut_index, st.xform, rv.2, rp.2, rv.1, rp.1⟩), c2)
    else if a.shape_type == "Bitmap" then
      (some (.Bitmap ⟨a.cut_index, st.xform, a.w, a.h, st.data⟩), c2)
    else if a.shape_type == "Group" then
      if st.children.isEmpty then (none, c2)
      else (some (.Group a.cut_index st.xform st.children), c2)
    else (none, c2)

/-- The `Text`-node handling of the `parse_shape_inner` loop (src/parser.rs):
the text of the element named by `current_tag` sets the transform or one of
the raw strings. -/
def applyTextNode (st : ShapeParseState) (s : String) : ShapeParseState :=
  if st.current_tag == "XForm" then { st with xform := parse_xform s }
  else if st.current_tag == "VertList" then { st with vert_list := s }
  else if st.current_tag == "PrimList" then { st with prim_list := s }
  else if st.current_tag == "Data" then { st with data := s }
  else st

/-- The event loop of `parse_shape_inner` (src/parser.rs).  Nested `Shape` and
`BackupPath` elements are parsed by recursion (consuming through their end
tag); all loops share the fuel, decremented at every consumed event. -/
def parseShapeLoop : Nat → ShapeAttrs → ShapeParseState → Nat → List XmlEvent → Caches →
    Option Shape × List XmlEvent × Caches
  | 0, _, _, _, evs, c => (none, evs, c)
  | _ + 1, a, st, _, [], c =>
    match finishShape a st c with
    | (sh, c2) => (sh, [], c2)
  | fuel + 1, a, st, depth, ev :: rest, c =>
    match ev with
    | .start tag attrs =>
      if tag == "Children" then
        parseShapeLoop fuel a { st with in_children := true, current_tag := tag }
          (depth + 1) rest c
      else if tag == "BackupPath" then
        match parseShapeLoop fuel (readShapeAttrs attrs) (initShapeState (readShapeAttrs attrs))
            1 rest c with
        | (bp, rest2, c2) =>
          parseShapeLoop fuel a
            { st with
              backup_path_shape := match bp with | some b => some b | none => st.backup_path_shape
              in_backup_path := false
              current_tag := tag }
            depth rest2 c2
      else if tag == "Shape" then
        match parseShapeLoop fuel (readShapeAttrs attrs) (initShapeState (readShapeAttrs attrs))
            1 rest c with
        | (child, rest2, c2) =>
          parseShapeLoop fuel a
            { st with
              backup_path_shape :=
                match child with
                | some ch => if st.in_backup_path then some ch else st.backup_path_shape
                | none => st.backup_path_shape
              children :=
                match child with
                | some ch =>
                  if !st.in_backup_path && st.in_children then st.children ++ [ch]
                  else st.children
                | none => st.children
              current_tag := tag }
            depth rest2 c2
      else
        parseShapeLoop fuel a { st with current_tag := tag } (depth + 1) rest c
    | .empty tag attrs =>
      if tag == "Shape" then
        match parse_shape_from_empty_element attrs with
        | some ch =>
          parseShapeLoop fuel a
            { st with
              backup_path_shape :=
                if st.in_backup_path then some ch else st.backup_path_shape
              children :=
                if !st.in_backup_path && st.in_children then st.children ++ [ch]
                else st.children }
            depth rest c
        | none => parseShapeLoop fuel a st depth rest c
      else parseShapeLoop fuel a st depth rest c
    | .text s =>
      parseShapeLoop fuel a (applyTextNode st s) depth rest c
    | .endTag tag =>
      let st2 :=
        { st with
          in_children := if tag == "Children" then false else st.in_children
          in_backup_path := if tag == "BackupPath" then false else st.in_backup_path
          current_tag := "" }
      if depth = 1 then
        match finishShape a st2 c with
        | (sh, c2) => (sh, rest, c2)
      else parseShapeLoop fuel a st2 (depth - 1) rest c

/-- `parse_shape_inner` (src/parser.rs). -/
def parseShapeInner (fuel : Nat) (a : ShapeAttrs) (evs : List XmlEvent) (c : Caches) :
    Option Shape × List XmlEvent × Caches :=
  parseShapeLoop fuel a (initShapeState a) 1 evs c

/-- The `LightBurnProject` attribute loop of the top level. -/
def applyProjectAttr (p : LightBurnProject) (kv : String × String) : LightBurnProject :=
  if kv.1 == "AppVersion" then { p with app_version := kv.2 }
  else if kv.1 == "FormatVersion" then { p with format_version := kv.2 }
  else p

/-- The top-level event loop of `parse_lbrn2_complete` (src/parser.rs). -/
def parseTopLoop : Nat → LightBurnProject → Caches → List XmlEvent → LightBurnProject
  | 0, proj, _, _ => proj
  | _ + 1, proj, _, [] => proj
  | fuel + 1, proj, c, ev :: rest =>
    match ev with
    | .start name attrs =>
      if name == "LightBurnProject" then
        parseTopLoop fuel (attrs.foldl applyProjectAttr proj) c rest
      else if name == "CutSetting" then
        match parseCutSettingInner fuel 0 1 rest with
        | (idx, rest2) =>
          parseTopLoop fuel
            { proj with cut_settings := proj.cut_settings ++ [⟨idx, "", none, none⟩] } c rest2
      else if name == "Shape" then
        match parseShapeInner fuel (readShapeAttrs attrs) rest c with
        | (some s, rest2, c2) =>
          parseTopLoop fuel { proj with shapes := proj.shapes ++ [s] } c2 rest2
        | (none, rest2, c2) => parseTopLoop fuel proj c2 rest2
      else parseTopLoop fuel proj c rest
    | .empty name attrs =>
      if name == "Shape" then
        match parse_shape_from_empty_element attrs with
        | some s => parseTopLoop fuel { proj with shapes := proj.shapes ++ [s] } c rest
        | none => parseTopLoop fuel proj c rest
      else parseTopLoop fuel proj c rest
    | .text _ => parseTopLoop fuel proj c rest
    | .endTag _ => parseTopLoop fuel proj c rest

/-- `parse_lbrn2_complete` (src/parser.rs), over the event stream. -/
def parse_lbrn2_complete (fuel : Nat) (events : List XmlEvent) : LightBurnProject :=
  parseTopLoop fuel ⟨"", "", [], []⟩ ⟨[], []⟩ events

/-! ## Bounds engine (src/bounds.rs)

The bounds computations are interpreted over `ℝ` (the stored `ℚ` coordinates
are cast), since the source uses `sqrt`, `sin`, `cos` and `π`; the resulting
definitions are noncomputable but exactly mirror the source's control flow. -/

/-- `Bounds` (src/bounds.rs). -/
structure Bounds where
  min_x : ℝ
  min_y : ℝ
  max_x : ℝ
  max_y : ℝ

/-- `Bounds::expand` (src/bounds.rs). -/
noncomputable def Bounds.expand (b o : Bounds) : Bounds :=
  ⟨min b.min_x o.min_x, min b.min_y o.min_y, max b.max_x o.max_x, max b.max_y o.max_y⟩

/-- `get_extrema` (src/bounds.rs): roots of the derivative of the cubic with
control values `a b c d` on one axis, kept only strictly inside `(0,1)`. -/
noncomputable def get_extrema (a b c d : ℝ) : List ℝ :=
  let aa := -a + 3 * b - 3 * c + d
  let bb := 2 * (a - 2 * b + c)
  let cc := b - a
  if |aa| < 1 / 10 ^ 8 then
    if |bb| > 1 / 10 ^ 8 then
      let t := -cc / bb
      if 0 < t ∧ t < 1 then [t] else []
    else []
  else
    let disc := bb * bb - 4 * aa * cc
    if 0 ≤ disc then
      let sqrt_d := Real.sqrt disc
      let t1 := (-bb + sqrt_d) / (2 * aa)
      let t2 := (-bb - sqrt_d) / (2 * aa)
      (if 0 < t1 ∧ t1 < 1 then [t1] else []) ++ (if 0 < t2 ∧ t2 < 1 then [t2] else [])
    else []

/-- Merge sort of the candidate `t` values (the source's `sort_by
partial_cmp`). -/
noncomputable def sortReals (l : List ℝ) : List ℝ :=
  l.mergeSort (fun a b => decide (a ≤ b))

/-- Helper of `dedupClose` carrying the last retained element. -/
noncomputable def dedupCloseGo (prev : ℝ) : List ℝ → List ℝ
  | [] => []
  | y :: ys => if |y - prev| < 1 / 10 ^ 10 then dedupCloseGo prev ys else y :: dedupCloseGo y ys

/-- The source's `dedup_by |a - b| < 1e-10`: drop elements within `1e-10` of
the previously retained one. -/
noncomputable def dedupClose : List ℝ → List ℝ
  | [] => []
  | x :: xs => x :: dedupCloseGo x xs

/-- `bezier_extrema` (src/bounds.rs): `{0, 1}` plus the per-axis extrema,
sorted and deduplicated. -/
noncomputable def bezier_extrema (p0 c0 c1 p1 : ℝ × ℝ) : List ℝ :=
  dedupClose (sortReals
    ([0, 1] ++ get_extrema p0.1 c0.1 c1.1 p1.1 ++ get_extrema p0.2 c0.2 c1.2 p1.2))

/-- `bezier_point` (src/bounds.rs): evaluate the cubic Bezier at `t`. -/
noncomputable def bezier_point (t : ℝ) (p0 c0 c1 p1 : ℝ × ℝ) : ℝ × ℝ :=
  ((1 - t) ^ 3 * p0.1 + 3 * (1 - t) ^ 2 * t * c0.1 + 3 * (1 - t) * t ^ 2 * c1.1 + t ^ 3 * p1.1,
    (1 - t) ^ 3 * p0.2 + 3 * (1 - t) ^ 2 * t * c0.2 + 3 * (1 - t) * t ^ 2 * c1.2 + t ^ 3 * p1.2)

/-- The `tx` closure of `get_transformed_bounds` (src/bounds.rs): apply the
transform and flip Y for SVG. -/
noncomputable def txPt (x : XForm) (p : ℝ × ℝ) : ℝ × ℝ :=
  ((x.a : ℝ) * p.1 + (x.c : ℝ) * p.2 + (x.e : ℝ),
    -((x.b : ℝ) * p.1 + (x.d : ℝ) * p.2 + (x.f : ℝ)))

/-- The raw corner points of a centered `w × h` box (Rect and Bitmap cases). -/
noncomputable def rectPoints (w h : ℚ) : List (ℝ × ℝ) :=
  [(-((w : ℝ) / 2), -((h : ℝ) / 2)), ((w : ℝ) / 2, -((h : ℝ) / 2)),
    ((w : ℝ) / 2, (h : ℝ) / 2), (-((w : ℝ) / 2), (h : ℝ) / 2)]

/-- The raw sample points of the Ellipse case: center, cardinal points and 32
perimeter samples. -/
noncomputable def ellipsePoints (rx ry : ℚ) : List (ℝ × ℝ) :=
  (0, 0) :: ((rx : ℝ), 0) :: (-(rx : ℝ), 0) :: (0, (ry : ℝ)) :: (0, -(ry : ℝ)) ::
    (List.range 32).map (fun i =>
      ((rx : ℝ) * Real.cos (2 * Real.pi * i / 32), (ry : ℝ) * Real.sin (2 * Real.pi * i / 32)))

/-- The raw points contributed by one path primitive (src/bounds.rs, Path
branch): a `Line` contributes each endpoint that is in range; a `Bezier` with
both indices in range contributes both endpoints, the present control points,
and the curve's extrema samples when all four control coordinates exist. -/
noncomputable def primPoints (verts : List Vec2) : PathPrimitive → List (ℝ × ℝ)
  | .Line s e =>
    (if s < verts.length then
      [(((verts.getD s (Vec2.new 0 0)).x : ℝ), ((verts.getD s (Vec2.new 0 0)).y : ℝ))]
     else []) ++
    (if e < verts.length then
      [(((verts.getD e (Vec2.new 0 0)).x : ℝ), ((verts.getD e (Vec2.new 0 0)).y : ℝ))]
     else [])
  | .Bezier s e =>
    if s < verts.length ∧ e < verts.length then
      let p0 := verts.getD s (Vec2.new 0 0)
      let p1 := verts.getD e (Vec2.new 0 0)
      [((p0.x : ℝ), (p0.y : ℝ)), ((p1.x : ℝ), (p1.y : ℝ))] ++
      (match p0.c0x, p0.c0y with
        | some cx, some cy => [((cx : ℝ), (cy : ℝ))]
        | _, _ => []) ++
      (match p1.c1x, p1.c1y with
        | some cx, some cy => [((cx : ℝ), (cy : ℝ))]
        | _, _ => []) ++
      (match p0.c0x, p0.c0y, p1.c1x, p1.c1y with
        | some c0x, some c0y, some c1x, some c1y =>
          (bezier_extrema ((p0.x : ℝ), (p0.y : ℝ)) ((c0x : ℝ), (c0y : ℝ))
              ((c1x : ℝ), (c1y : ℝ)) ((p1.x : ℝ), (p1.y : ℝ))).map
            (fun t => bezier_point t ((p0.x : ℝ), (p0.y : ℝ)) ((c0x : ℝ), (c0y : ℝ))
              ((c1x : ℝ), (c1y : ℝ)) ((p1.x : ℝ), (p1.y : ℝ)))
        | _, _, _, _ => [])
    else []

/-- The raw `points_to_bound` of the Path case (src/bounds.rs): all vertices
for the `LineClosed` sentinel, the per-primitive points when primitives exist,
and the all-vertices fallback otherwise. -/
noncomputable def pathPoints (p : Path) : List (ℝ × ℝ) :=
  if p.prim_list == "LineClosed" then
    p.parsed_verts.map (fun v => ((v.x : ℝ), (v.y : ℝ)))
  else if !p.parsed_primitives.isEmpty then
    p.parsed_primitives.flatMap (primPoints p.parsed_verts)
  else
    p.parsed_verts.map (fun v => ((v.x : ℝ), (v.y : ℝ)))

/-- The combined-bounds accumulation of the Group case (src/bounds.rs): take
the new child bounds when none were accumulated yet, expand otherwise. -/
noncomputable def mergeOpt : Option Bounds → Option Bounds → Option Bounds
  | none, some b => some b
  | some a, some b => some (a.expand b)
  | a, none => a

/-- Transform the collected points and fold their min/max box
(src/bounds.rs, tail of `get_transformed_bounds`: the `INFINITY`-seeded
`fold` over a nonempty list equals the fold seeded from its first element). -/
noncomputable def boundsOfPoints (x : XForm) : List (ℝ × ℝ) → Option Bounds
  | [] => none
  | q :: rest =>
    let tq := txPt x q
    let rest2 := rest.map (txPt x)
    some ⟨rest2.foldl (fun m p => min m p.1) tq.1, rest2.foldl (fun m p => min m p.2) tq.2,
      rest2.foldl (fun m p => max m p.1) tq.1, rest2.foldl (fun m p => max m p.2) tq.2⟩

mutual

/-- `get_transformed_bounds` (src/bounds.rs) with the shape's effective
transform passed explicitly: the source clones each group child and overwrites
its transform with `parent.compose(child)`, which is modelled by passing the
composed transform down. -/
noncomputable def get_transformed_bounds_aux : XForm → Shape → Option Bounds
  | x, .Rect r => boundsOfPoints x (rectPoints r.w r.h)
  | x, .Ellipse e => boundsOfPoints x (ellipsePoints e.rx e.ry)
  | x, .Path p =>
    if p.parsed_verts.isEmpty then none else boundsOfPoints x (pathPoints p)
  | x, .Bitmap b => boundsOfPoints x (rectPoints b.w b.h)
  | x, .Group _ _ children =>
    if children.isEmpty then none else groupFold x children none

/-- The child loop of the Group case (src/bounds.rs): accumulate the combined
bounds over the children under the composed transform. -/
noncomputable def groupFold (x : XForm) : List Shape → Option Bounds → Option Bounds
  | [], acc => acc
  | c :: rest, acc =>
    groupFold x rest (mergeOpt acc (get_transformed_bounds_aux (x.compose c.xform) c))

end

/-- `get_transformed_bounds` (src/bounds.rs). -/
noncomputable def get_transformed_bounds (s : Shape) : Option Bounds :=
  get_transformed_bounds_aux s.xform s

/-! ## Claim C6: transform algebra -/

/-- C6: `compose` is associative to within `1e-9` on every coefficient (in the
exact-arithmetic model the difference is exactly `0`), and `identity` is a
two-sided unit for `compose`. -/
theorem compose_assoc_and_identity (A B C X : XForm) :
    |((A.compose B).compose C).a - (A.compose (B.compose C)).a| ≤ 1 / 10 ^ 9 ∧
    |((A.compose B).compose C).b - (A.compose (B.compose C)).b| ≤ 1 / 10 ^ 9 ∧
    |((A.compose B).compose C).c - (A.compose (B.compose C)).c| ≤ 1 / 10 ^ 9 ∧
    |((A.compose B).compose C).d - (A.compose (B.compose C)).d| ≤ 1 / 10 ^ 9 ∧
    |((A.compose B).compose C).e - (A.compose (B.compose C)).e| ≤ 1 / 10 ^ 9 ∧
    |((A.compose B).compose C).f - (A.compose (B.compose C)).f| ≤ 1 / 10 ^ 9 ∧
    XForm.identity.compose X = X ∧ X.compose XForm.identity = X := by
  obtain ⟨a1, b1, c1, d1, e1, f1⟩ := A
  obtain ⟨a2, b2, c2, d2, e2, f2⟩ := B
  obtain ⟨a3, b3, c3, d3, e3, f3⟩ := C
  obtain ⟨a4, b4, c4, d4, e4, f4⟩ := X
  refine ⟨?_, ?_, ?_, ?_, ?_, ?_, ?_, ?_⟩ <;>
    simp only [XForm.compose, XForm.identity, XForm.mk.injEq] <;>
    first
      | (refine ⟨?_, ?_, ?_, ?_, ?_, ?_⟩ <;> ring)
      | (ring_nf; norm_num)

/-! ## Claim C8: cut-setting style for a matched setting without color -/

/-- C8: if the settings table contains a setting matching the queried index and
that setting has no explicit color, the emitted color is the palette entry at
`index mod 8` for a non-negative index and black `#000000` for a negative index
(no palette wraparound), and the stroke width defaults to `0.050000mm` when
unset. -/
theorem style_matched_no_color (l : List CutSetting) (i : Int) (c : CutSetting)
    (hfind : l.find? (fun x => x.index == i) = some c)
    (hcolor : c.color = none) :
    get_cut_setting_style i (some l) =
      "stroke:" ++ (if 0 ≤ i then DEFAULT_COLORS.getD (i.toNat % 8) "#000000" else "#000000") ++
      ";stroke-width:" ++ (c.stroke_width.getD "0.050000mm") ++ ";fill:none" := by
  have hne : l.isEmpty = false := by
    cases l with
    | nil => simp at hfind
    | cons a t => rfl
  have hidx : c.index = i := by
    have h2 := List.find?_some hfind
    simpa using h2
  simp only [get_cut_setting_style, hne, Bool.false_eq_true, if_false, hfind, hcolor,
    Option.some_bind]
  rw [hidx]
  rcases Decidable.em (0 ≤ i) with h | h
  · rw [if_pos h, if_pos h]
  · rw [if_neg h, if_neg h]
    rfl

/-- Witness for C8 at the concrete table `[{index := -1, color := none}]`. -/
theorem style_matched_no_color_witness :
    ([⟨-1, "", none, none⟩] : List CutSetting).find? (fun x => x.index == -1) =
      some ⟨-1, "", none, none⟩ ∧
    (⟨-1, "", none, none⟩ : CutSetting).color = none ∧
    get_cut_setting_style (-1) (some [⟨-1, "", none, none⟩]) =
      "stroke:#000000;stroke-width:0.050000mm;fill:none" := by
  refine ⟨by decide, rfl, ?_⟩
  have h := style_matched_no_color [⟨-1, "", none, none⟩] (-1) ⟨-1, "", none, none⟩
    (by decide) rfl
  simpa using h

/-! ## Claim C4: parse_xform behavior -/

/-- Spec-side reading of "the string is exactly 6 whitespace-separated floats". -/
def isSixFloats (s : String) : Prop :=
  (splitWhitespace s).length = 6 ∧ ∀ t ∈ splitWhitespace s, (rustParseFloat t).isSome

instance (s : String) : Decidable (isSixFloats s) := by
  unfold isSixFloats
  infer_instance

lemma xformOfParts_of_ne_six (ps : List ℚ) (h : ps.length ≠ 6) :
    xformOfParts ps = XForm.identity := by
  rcases ps with _ | ⟨a, _ | ⟨b, _ | ⟨c, _ | ⟨d, _ | ⟨e, _ | ⟨f, _ | ⟨g, t⟩⟩⟩⟩⟩⟩⟩ <;>
    first
      | rfl
      | (exact absurd rfl h)

lemma rustParseFloat_of_parts (s : String) (p : FloatParts)
    (h : rustParseFloatParts s = some p) : rustParseFloat s = some (floatVal p) := by
  simp [rustParseFloat, h]

lemma digitsVal_nil : digitsVal [] = 0 := rfl

lemma rustParseFloat_nat (s : String) (ip : List Char) (n : Nat)
    (h : rustParseFloatParts s = some ⟨1, ip, [], 0⟩) (hd : digitsVal ip = n) :
    rustParseFloat s = some (n : ℚ) := by
  rw [rustParseFloat_of_parts s _ h]
  simp [floatVal, hd, digitsVal_nil]

/-- C4 counterexample: `"x 1 2 3 4 5 6"` is not exactly 6 whitespace-separated
floats (it has 7 tokens), yet `parse_xform` returns the non-identity transform
built from the 6 parseable tokens, because `filter_map` silently drops the
unparseable token. -/
theorem parse_xform_counterexample :
    ¬ isSixFloats "x 1 2 3 4 5 6" ∧
    parse_xform "x 1 2 3 4 5 6" = ⟨1, 2, 3, 4, 5, 6⟩ ∧
    (⟨1, 2, 3, 4, 5, 6⟩ : XForm) ≠ XForm.identity := by
  refine ⟨by decide, ?_, ?_⟩
  · have hs : splitWhitespace "x 1 2 3 4 5 6" = ["x", "1", "2", "3", "4", "5", "6"] := by
      decide
    have hx : rustParseFloatParts "x" = none := by decide
    have h1 : rustParseFloat "1" = some ((1 : Nat) : ℚ) :=
      rustParseFloat_nat _ ['1'] _ (by decide) (by decide)
    have h2 : rustParseFloat "2" = some ((2 : Nat) : ℚ) :=
      rustParseFloat_nat _ ['2'] _ (by decide) (by decide)
    have h3 : rustParseFloat "3" = some ((3 : Nat) : ℚ) :=
      rustParseFloat_nat _ ['3'] _ (by decide) (by decide)
    have h4 : rustParseFloat "4" = some ((4 : Nat) : ℚ) :=
      rustParseFloat_nat _ ['4'] _ (by decide) (by decide)
    have h5 : rustParseFloat "5" = some ((5 : Nat) : ℚ) :=
      rustParseFloat_nat _ ['5'] _ (by decide) (by decide)
    have h6 : rustParseFloat "6" = some ((6 : Nat) : ℚ) :=
      rustParseFloat_nat _ ['6'] _ (by decide) (by decide)
    have hxf : rustParseFloat "x" = none := by simp [rustParseFloat, hx]
    rw [parse_xform, hs]
    simp [List.filterMap_cons, hxf, h1, h2, h3, h4, h5, h6, xformOfParts]
  · intro h
    have hb := congrArg XForm.b h
    norm_num [XForm.identity] at hb

/-- C4 amended: `parse_xform` returns the transform built in order from the six
tokens whenever the input is exactly 6 whitespace-separated floats, and returns
the identity whenever the number of parseable float tokens differs from 6 (an
unparseable token is dropped by `filter_map`, not counted); it never errors (it
is total by construction). -/
theorem parse_xform_amended (s : String) :
    (∀ t1 t2 t3 t4 t5 t6 v1 v2 v3 v4 v5 v6,
      splitWhitespace s = [t1, t2, t3, t4, t5, t6] →
      rustParseFloat t1 = some v1 → rustParseFloat t2 = some v2 →
      rustParseFloat t3 = some v3 → rustParseFloat t4 = some v4 →
      rustParseFloat t5 = some v5 → rustParseFloat t6 = some v6 →
      parse_xform s = ⟨v1, v2, v3, v4, v5, v6⟩) ∧
    (((splitWhitespace s).filterMap rustParseFloat).length ≠ 6 →
      parse_xform s = XForm.identity) := by
  constructor
  · intro t1 t2 t3 t4 t5 t6 v1 v2 v3 v4 v5 v6 hs h1 h2 h3 h4 h5 h6
    unfold parse_xform
    rw [hs]
    simp [List.filterMap, h1, h2, h3, h4, h5, h6, xformOfParts]
  · intro h
    unfold parse_xform
    exact xformOfParts_of_ne_six _ h

/-- Witness for C4 at the repo's own test input `"1 0 0 1 55 55"`. -/
theorem parse_xform_amended_witness :
    splitWhitespace "1 0 0 1 55 55" = ["1", "0", "0", "1", "55", "55"] ∧
    rustParseFloat "1" = some ((1 : Nat) : ℚ) ∧ rustParseFloat "0" = some ((0 : Nat) : ℚ) ∧
    rustParseFloat "55" = some ((55 : Nat) : ℚ) ∧
    parse_xform "1 0 0 1 55 55" =
      ⟨((1 : Nat) : ℚ), ((0 : Nat) : ℚ), ((0 : Nat) : ℚ), ((1 : Nat) : ℚ),
        ((55 : Nat) : ℚ), ((55 : Nat) : ℚ)⟩ := by
  have h1 : rustParseFloat "1" = some ((1 : Nat) : ℚ) :=
    rustParseFloat_nat _ ['1'] _ (by decide) (by decide)
  have h0 : rustParseFloat "0" = some ((0 : Nat) : ℚ) :=
    rustParseFloat_nat _ ['0'] _ (by decide) (by decide)
  have h55 : rustParseFloat "55" = some ((55 : Nat) : ℚ) :=
    rustParseFloat_nat _ ['5', '5'] _ (by decide) (by decide)
  refine ⟨by decide, h1, h0, h55, ?_⟩
  exact (parse_xform_amended "1 0 0 1 55 55").1 "1" "0" "0" "1" "55" "55" _ _ _ _ _ _
    (by decide) h1 h0 h0 h1 h55 h55

/-! ## Claim C2: when get_transformed_bounds returns None -/

/-- Does a primitive contribute at least one point to `points_to_bound`?
A `Line` contributes when either endpoint index is in range; a `Bezier` only
when both are. -/
def primContributes (n : Nat) : PathPrimitive → Bool
  | .Line s e => decide (s < n) || decide (e < n)
  | .Bezier s e => decide (s < n) && decide (e < n)

mutual

/-- Recursive characterization of "the shape yields at least one point to
bound": Rect/Ellipse/Bitmap always do; a Path needs vertices and (when it has
explicit primitives and is not `LineClosed`) at least one contributing
primitive; a Group needs some child that yields points. -/
def hasPoints : Shape → Bool
  | .Rect _ => true
  | .Ellipse _ => true
  | .Path p =>
    !p.parsed_verts.isEmpty &&
      (p.prim_list == "LineClosed" || p.parsed_primitives.isEmpty ||
        p.parsed_primitives.any (primContributes p.parsed_verts.length))
  | .Bitmap _ => true
  | .Group _ _ children => anyHasPoints children

/-- `hasPoints` over a list of children. -/
def anyHasPoints : List Shape → Bool
  | [] => false
  | c :: rest => hasPoints c || anyHasPoints rest

end

lemma boundsOfPoints_isSome (x : XForm) (pts : List (ℝ × ℝ)) :
    (boundsOfPoints x pts).isSome = !pts.isEmpty := by
  cases pts <;> rfl

lemma primPoints_isEmpty (verts : List Vec2) (pr : PathPrimitive) :
    (primPoints verts pr).isEmpty = !primContributes verts.length pr := by
  cases pr with
  | Line s e =>
    simp only [primPoints, primContributes]
    by_cases hs : s < verts.length <;> by_cases he : e < verts.length <;> simp [hs, he]
  | Bezier s e =>
    simp only [primPoints, primContributes]
    by_cases hs : s < verts.length <;> by_cases he : e < verts.length <;> simp [hs, he]

lemma mergeOpt_isSome (a b : Option Bounds) : (mergeOpt a b).isSome = (a.isSome || b.isSome) := by
  cases a <;> cases b <;> rfl

lemma flatMap_isEmpty {α β : Type} (f : α → List β) (l : List α) :
    (l.flatMap f).isEmpty = !(l.any fun a => !(f a).isEmpty) := by
  induction l with
  | nil => rfl
  | cons a tl ih =>
    rw [List.flatMap_cons, List.any_cons]
    cases hfa : f a with
    | nil => simp [ih]
    | cons b bs => simp

mutual

theorem gtb_aux_isSome : ∀ (x : XForm) (s : Shape),
    (get_transformed_bounds_aux x s).isSome = hasPoints s
  | x, .Rect r => by
    simp [get_transformed_bounds_aux, hasPoints, boundsOfPoints_isSome, rectPoints]
  | x, .Ellipse e => by
    simp [get_transformed_bounds_aux, hasPoints, boundsOfPoints_isSome, ellipsePoints]
  | x, .Path p => by
    rw [get_transformed_bounds_aux, hasPoints]
    by_cases hv : p.parsed_verts.isEmpty
    · simp [hv]
    · have hv2 : ¬ p.parsed_verts = [] := by
        rw [← List.isEmpty_iff]
        exact fun h => hv h
      rw [if_neg hv, boundsOfPoints_isSome, pathPoints]
      by_cases hlc : (p.prim_list == "LineClosed") = true
      · simp [hlc, hv, hv2]
      · rw [Bool.not_eq_true] at hlc
        by_cases hpe : p.parsed_primitives.isEmpty
        · simp [hlc, hpe, hv, hv2]
        · rw [hlc]
          simp only [Bool.false_eq_true, if_false, hpe, Bool.not_false, if_true]
          rw [flatMap_isEmpty]
          simp only [primPoints_isEmpty, Bool.not_not]
          simp [hv, hlc, hpe]
  | x, .Bitmap b => by
    simp [get_transformed_bounds_aux, hasPoints, boundsOfPoints_isSome, rectPoints]
  | x, .Group ci xf children => by
    rw [get_transformed_bounds_aux, hasPoints]
    by_cases hc : children.isEmpty
    · rw [if_pos hc]
      rw [List.isEmpty_iff] at hc
      subst hc
      rfl
    · rw [if_neg hc, groupFold_isSome x children none]
      rfl

theorem groupFold_isSome : ∀ (x : XForm) (l : List Shape) (acc : Option Bounds),
    (groupFold x l acc).isSome = (acc.isSome || anyHasPoints l)
  | x, [], acc => by
    rw [groupFold, anyHasPoints]
    cases acc <;> rfl
  | x, c :: rest, acc => by
    rw [groupFold, anyHasPoints]
    rw [groupFold_isSome x rest _]
    have hcb := gtb_aux_isSome (x.compose c.xform) c
    cases acc with
    | none =>
      rw [mergeOpt_isSome, ← hcb]
      simp
    | some a =>
      rw [mergeOpt_isSome]
      simp

end

/-- C2 counterexample: a Group whose single child is an empty Group has a
nonempty children list, yet `get_transformed_bounds` returns `None` — the
claim promised `Some` for groups whose children all yield no bounds. -/
theorem get_transformed_bounds_counterexample :
    ([Shape.Group 0 XForm.identity []] ≠ ([] : List Shape)) ∧
    get_transformed_bounds
      (Shape.Group 0 XForm.identity [Shape.Group 0 XForm.identity []]) = none := by
  refine ⟨by simp, ?_⟩
  rw [get_transformed_bounds]
  rw [show (Shape.Group 0 XForm.identity [Shape.Group 0 XForm.identity []]).xform =
    XForm.identity from rfl]
  rw [get_transformed_bounds_aux]
  rw [if_neg (by simp)]
  rw [groupFold]
  rw [show get_transformed_bounds_aux (XForm.identity.compose
    (Shape.Group 0 XForm.identity []).xform) (Shape.Group 0 XForm.identity []) = none from by
      rw [get_transformed_bounds_aux]
      simp]
  rw [groupFold]
  rfl

/-- C2 amended: `get_transformed_bounds` returns `None` exactly when the shape
recursively yields no point to bound: an empty Path, a Path whose explicit
primitive list is nonempty but contributes no in-range point, an empty Group,
or a Group all of whose children themselves yield no bounds.  (The original
claim is wrong for the last two kinds of shape: such groups return `None`,
not `Some`, and a nonempty Path with only out-of-range primitives also
returns `None`.) -/
theorem get_transformed_bounds_eq_none_iff (s : Shape) :
    get_transformed_bounds s = none ↔ hasPoints s = false := by
  rw [get_transformed_bounds, ← Option.not_isSome_iff_eq_none, gtb_aux_isSome]
  cases hasPoints s <;> simp

/-! ## Claim C1: Bezier curve points lie in the computed bounds -/

lemma foldl_min_le_init {α : Type} (f : α → ℝ) :
    ∀ (l : List α) (a : ℝ), l.foldl (fun m p => min m (f p)) a ≤ a
  | [], _ => le_refl _
  | p :: t, a =>
    le_trans (foldl_min_le_init f t (min a (f p))) (min_le_left _ _)

lemma foldl_min_le_mem {α : Type} (f : α → ℝ) :
    ∀ (l : List α) (a : ℝ) (x : α), x ∈ l → l.foldl (fun m p => min m (f p)) a ≤ f x
  | p :: t, a, x, hx => by
    rcases List.mem_cons.mp hx with h | h
    · subst h
      exact le_trans (foldl_min_le_init f t (min a (f x))) (min_le_right _ _)
    · exact foldl_min_le_mem f t (min a (f p)) x h

lemma le_foldl_max_init {α : Type} (f : α → ℝ) :
    ∀ (l : List α) (a : ℝ), a ≤ l.foldl (fun m p => max m (f p)) a
  | [], _ => le_refl _
  | p :: t, a =>
    le_trans (le_max_left _ _) (le_foldl_max_init f t (max a (f p)))

lemma le_foldl_max_mem {α : Type} (f : α → ℝ) :
    ∀ (l : List α) (a : ℝ) (x : α), x ∈ l → f x ≤ l.foldl (fun m p => max m (f p)) a
  | p :: t, a, x, hx => by
    rcases List.mem_cons.mp hx with h | h
    · subst h
      exact le_trans (le_max_right _ _) (le_foldl_max_init f t (max a (f x)))
    · exact le_foldl_max_mem f t (max a (f p)) x h

/-- Every raw point's transform is inside the box `boundsOfPoints` computes. -/
lemma boundsOfPoints_mem_bound (x : XForm) (pts : List (ℝ × ℝ)) (r : ℝ × ℝ)
    (hr : r ∈ pts) :
    ∃ b, boundsOfPoints x pts = some b ∧
      b.min_x ≤ (txPt x r).1 ∧ (txPt x r).1 ≤ b.max_x ∧
      b.min_y ≤ (txPt x r).2 ∧ (txPt x r).2 ≤ b.max_y := by
  cases pts with
  | nil => cases hr
  | cons q rest =>
    rcases List.mem_cons.mp hr with h | h
    · subst h
      exact ⟨_, rfl, foldl_min_le_init _ _ _, le_foldl_max_init _ _ _,
        foldl_min_le_init _ _ _, le_foldl_max_init _ _ _⟩
    · have hm : txPt x r ∈ rest.map (txPt x) := List.mem_map_of_mem _ h
      exact ⟨_, rfl, foldl_min_le_mem _ _ _ _ hm, le_foldl_max_mem _ _ _ _ hm,
        foldl_min_le_mem _ _ _ _ hm, le_foldl_max_mem _ _ _ _ hm⟩

/-- Convexity of the Bernstein weights: the cubic combination of four values
within `[m, M]` stays within `[m, M]` for `t ∈ [0, 1]`. -/
lemma bernstein_combo_bounds (t u0 u1 u2 u3 m M : ℝ) (ht0 : 0 ≤ t) (ht1 : t ≤ 1)
    (h0 : m ≤ u0) (h1 : m ≤ u1) (h2 : m ≤ u2) (h3 : m ≤ u3)
    (g0 : u0 ≤ M) (g1 : u1 ≤ M) (g2 : u2 ≤ M) (g3 : u3 ≤ M) :
    m ≤ (1 - t) ^ 3 * u0 + 3 * (1 - t) ^ 2 * t * u1 + 3 * (1 - t) * t ^ 2 * u2 + t ^ 3 * u3 ∧
    (1 - t) ^ 3 * u0 + 3 * (1 - t) ^ 2 * t * u1 + 3 * (1 - t) * t ^ 2 * u2 + t ^ 3 * u3 ≤ M := by
  have hmt : (0 : ℝ) ≤ 1 - t := by linarith
  have hw0 : (0 : ℝ) ≤ (1 - t) ^ 3 := pow_nonneg hmt 3
  have hw1 : (0 : ℝ) ≤ 3 * (1 - t) ^ 2 * t := by positivity
  have hw2 : (0 : ℝ) ≤ 3 * (1 - t) * t ^ 2 := by positivity
  have hw3 : (0 : ℝ) ≤ t ^ 3 := pow_nonneg ht0 3
  have hsum : (1 - t) ^ 3 + 3 * (1 - t) ^ 2 * t + 3 * (1 - t) * t ^ 2 + t ^ 3 = 1 := by ring
  constructor
  · have l0 : (1 - t) ^ 3 * m ≤ (1 - t) ^ 3 * u0 := mul_le_mul_of_nonneg_left h0 hw0
    have l1 : 3 * (1 - t) ^ 2 * t * m ≤ 3 * (1 - t) ^ 2 * t * u1 :=
      mul_le_mul_of_nonneg_left h1 hw1
    have l2 : 3 * (1 - t) * t ^ 2 * m ≤ 3 * (1 - t) * t ^ 2 * u2 :=
      mul_le_mul_of_nonneg_left h2 hw2
    have l3 : t ^ 3 * m ≤ t ^ 3 * u3 := mul_le_mul_of_nonneg_left h3 hw3
    nlinarith [l0, l1, l2, l3, hsum]
  · have l0 : (1 - t) ^ 3 * u0 ≤ (1 - t) ^ 3 * M := mul_le_mul_of_nonneg_left g0 hw0
    have l1 : 3 * (1 - t) ^ 2 * t * u1 ≤ 3 * (1 - t) ^ 2 * t * M :=
      mul_le_mul_of_nonneg_left g1 hw1
    have l2 : 3 * (1 - t) * t ^ 2 * u2 ≤ 3 * (1 - t) * t ^ 2 * M :=
      mul_le_mul_of_nonneg_left g2 hw2
    have l3 : t ^ 3 * u3 ≤ t ^ 3 * M := mul_le_mul_of_nonneg_left g3 hw3
    nlinarith [l0, l1, l2, l3, hsum]

/-- The transform-and-flip map is affine, so it commutes with Bezier
evaluation. -/
lemma txPt_bezier_point (x : XForm) (t : ℝ) (p0 c0 c1 p1 : ℝ × ℝ) :
    txPt x (bezier_point t p0 c0 c1 p1) =
      bezier_point t (txPt x p0) (txPt x c0) (txPt x c1) (txPt x p1) := by
  unfold txPt bezier_point
  refine Prod.ext ?_ ?_ <;> (show _ = _) <;> ring

/-- C1: for a Bezier primitive of a Path (explicit primitives, both endpoint
indices in range, all four control coordinates present), every point of the
cubic Bezier curve at `t ∈ [0,1]`, transformed by the shape's transform with
the Y flip, lies inside the bounding box computed by
`get_transformed_bounds`. -/
theorem bezier_curve_in_bounds (p : Path) (s e : Nat) (c0xv c0yv c1xv c1yv : ℚ) (t : ℝ)
    (hmem : PathPrimitive.Bezier s e ∈ p.parsed_primitives)
    (hs : s < p.parsed_verts.length) (he : e < p.parsed_verts.length)
    (hc0x : (p.parsed_verts.getD s (Vec2.new 0 0)).c0x = some c0xv)
    (hc0y : (p.parsed_verts.getD s (Vec2.new 0 0)).c0y = some c0yv)
    (hc1x : (p.parsed_verts.getD e (Vec2.new 0 0)).c1x = some c1xv)
    (hc1y : (p.parsed_verts.getD e (Vec2.new 0 0)).c1y = some c1yv)
    (hlc : p.prim_list ≠ "LineClosed") (ht0 : 0 ≤ t) (ht1 : t ≤ 1) :
    ∃ b, get_transformed_bounds (Shape.Path p) = some b ∧
      b.min_x ≤ (txPt p.xform (bezier_point t
        (((p.parsed_verts.getD s (Vec2.new 0 0)).x : ℝ),
          ((p.parsed_verts.getD s (Vec2.new 0 0)).y : ℝ))
        ((c0xv : ℝ), (c0yv : ℝ)) ((c1xv : ℝ), (c1yv : ℝ))
        (((p.parsed_verts.getD e (Vec2.new 0 0)).x : ℝ),
          ((p.parsed_verts.getD e (Vec2.new 0 0)).y : ℝ)))).1 ∧
      (txPt p.xform (bezier_point t
        (((p.parsed_verts.getD s (Vec2.new 0 0)).x : ℝ),
          ((p.parsed_verts.getD s (Vec2.new 0 0)).y : ℝ))
        ((c0xv : ℝ), (c0yv : ℝ)) ((c1xv : ℝ), (c1yv : ℝ))
        (((p.parsed_verts.getD e (Vec2.new 0 0)).x : ℝ),
          ((p.parsed_verts.getD e (Vec2.new 0 0)).y : ℝ)))).1 ≤ b.max_x ∧
      b.min_y ≤ (txPt p.xform (bezier_point t
        (((p.parsed_verts.getD s (Vec2.new 0 0)).x : ℝ),
          ((p.parsed_verts.getD s (Vec2.new 0 0)).y : ℝ))
        ((c0xv : ℝ), (c0yv : ℝ)) ((c1xv : ℝ), (c1yv : ℝ))
        (((p.parsed_verts.getD e (Vec2.new 0 0)).x : ℝ),
          ((p.parsed_verts.getD e (Vec2.new 0 0)).y : ℝ)))).2 ∧
      (txPt p.xform (bezier_point t
        (((p.parsed_verts.getD s (Vec2.new 0 0)).x : ℝ),
          ((p.parsed_verts.getD s (Vec2.new 0 0)).y : ℝ))
        ((c0xv : ℝ), (c0yv : ℝ)) ((c1xv : ℝ), (c1yv : ℝ))
        (((p.parsed_verts.getD e (Vec2.new 0 0)).x : ℝ),
          ((p.parsed_verts.getD e (Vec2.new 0 0)).y : ℝ)))).2 ≤ b.max_y := by
  set v0 := p.parsed_verts.getD s (Vec2.new 0 0) with hv0
  set v1 := p.parsed_verts.getD e (Vec2.new 0 0) with hv1
  set P0 : ℝ × ℝ := ((v0.x : ℝ), (v0.y : ℝ)) with hP0
  set C0 : ℝ × ℝ := ((c0xv : ℝ), (c0yv : ℝ)) with hC0
  set C1 : ℝ × ℝ := ((c1xv : ℝ), (c1yv : ℝ)) with hC1
  set P1 : ℝ × ℝ := ((v1.x : ℝ), (v1.y : ℝ)) with hP1
  -- the four control points are in the primitive's point list
  have hprim : primPoints p.parsed_verts (.Bezier s e) =
      [P0, P1] ++ [C0] ++ [C1] ++
      (bezier_extrema P0 C0 C1 P1).map (fun u => bezier_point u P0 C0 C1 P1) := by
    rw [primPoints]
    rw [if_pos ⟨hs, he⟩]
    simp only [← hv0, ← hv1]
    rw [hc0x, hc0y, hc1x, hc1y]
  have hbeq : (p.prim_list == "LineClosed") = false := by simpa using hlc
  have hpne : (!p.parsed_primitives.isEmpty) = true := by
    cases hpp : p.parsed_primitives with
    | nil => rw [hpp] at hmem; cases hmem
    | cons a l => rfl
  have hppts : pathPoints p = p.parsed_primitives.flatMap (primPoints p.parsed_verts) := by
    rw [pathPoints, hbeq]
    simp only [Bool.false_eq_true, if_false]
    rw [if_pos hpne]
  have hsub : ∀ r ∈ primPoints p.parsed_verts (.Bezier s e), r ∈ pathPoints p := by
    intro r hr
    rw [hppts]
    exact List.mem_flatMap.mpr ⟨_, hmem, hr⟩
  have hmP0 : P0 ∈ pathPoints p := hsub _ (by rw [hprim]; simp)
  have hmP1 : P1 ∈ pathPoints p := hsub _ (by rw [hprim]; simp)
  have hmC0 : C0 ∈ pathPoints p := hsub _ (by rw [hprim]; simp)
  have hmC1 : C1 ∈ pathPoints p := hsub _ (by rw [hprim]; simp)
  have hvne : p.parsed_verts.isEmpty = false := by
    cases hv : p.parsed_verts with
    | nil => rw [hv] at hs; simp at hs
    | cons a l => rfl
  have hgtb : get_transformed_bounds (Shape.Path p) = boundsOfPoints p.xform (pathPoints p) := by
    rw [get_transformed_bounds]
    rw [show (Shape.Path p).xform = p.xform from rfl]
    rw [get_transformed_bounds_aux, hvne]
    simp only [Bool.false_eq_true, if_false]
  obtain ⟨b, hb, hP0x, hP0X, hP0y, hP0Y⟩ :=
    boundsOfPoints_mem_bound p.xform (pathPoints p) P0 hmP0
  obtain ⟨bq, hbq, hP1x, hP1X, hP1y, hP1Y⟩ :=
    boundsOfPoints_mem_bound p.xform (pathPoints p) P1 hmP1
  obtain ⟨br, hbr, hC0x, hC0X, hC0y, hC0Y⟩ :=
    boundsOfPoints_mem_bound p.xform (pathPoints p) C0 hmC0
  obtain ⟨bu, hbu, hC1x, hC1X, hC1y, hC1Y⟩ :=
    boundsOfPoints_mem_bound p.xform (pathPoints p) C1 hmC1
  obtain rfl : b = bq := Option.some.inj (hb.symm.trans hbq)
  obtain rfl : b = br := Option.some.inj (hb.symm.trans hbr)
  obtain rfl : b = bu := Option.some.inj (hb.symm.trans hbu)
  refine ⟨b, by rw [hgtb]; exact hb, ?_, ?_, ?_, ?_⟩ <;> rw [txPt_bezier_point]
  · exact (bernstein_combo_bounds t (txPt p.xform P0).1 (txPt p.xform C0).1
      (txPt p.xform C1).1 (txPt p.xform P1).1 b.min_x b.max_x ht0 ht1
      hP0x hC0x hC1x hP1x hP0X hC0X hC1X hP1X).1
  · exact (bernstein_combo_bounds t (txPt p.xform P0).1 (txPt p.xform C0).1
      (txPt p.xform C1).1 (txPt p.xform P1).1 b.min_x b.max_x ht0 ht1
      hP0x hC0x hC1x hP1x hP0X hC0X hC1X hP1X).2
  · exact (bernstein_combo_bounds t (txPt p.xform P0).2 (txPt p.xform C0).2
      (txPt p.xform C1).2 (txPt p.xform P1).2 b.min_y b.max_y ht0 ht1
      hP0y hC0y hC1y hP1y hP0Y hC0Y hC1Y hP1Y).1
  · exact (bernstein_combo_bounds t (txPt p.xform P0).2 (txPt p.xform C0).2
      (txPt p.xform C1).2 (txPt p.xform P1).2 b.min_y b.max_y ht0 ht1
      hP0y hC0y hC1y hP1y hP0Y hC0Y hC1Y hP1Y).2

/-- Concrete path for the C1 witness: one Bezier primitive with full control
data. -/
def c1WitnessPath : Path :=
  ⟨0, XForm.identity, "", "B0 1",
    [⟨0, 0, some 1, some 2, none, none⟩, ⟨3, 1, none, none, some 2, some 3⟩],
    [.Bezier 0 1]⟩

/-- Witness for C1 at `t = 1/2` on a concrete one-Bezier path. -/
theorem bezier_curve_in_bounds_witness :
    PathPrimitive.Bezier 0 1 ∈ c1WitnessPath.parsed_primitives ∧
    0 < c1WitnessPath.parsed_verts.length ∧ 1 < c1WitnessPath.parsed_verts.length ∧
    (c1WitnessPath.parsed_verts.getD 0 (Vec2.new 0 0)).c0x = some 1 ∧
    (c1WitnessPath.parsed_verts.getD 0 (Vec2.new 0 0)).c0y = some 2 ∧
    (c1WitnessPath.parsed_verts.getD 1 (Vec2.new 0 0)).c1x = some 2 ∧
    (c1WitnessPath.parsed_verts.getD 1 (Vec2.new 0 0)).c1y = some 3 ∧
    c1WitnessPath.prim_list ≠ "LineClosed" ∧
    (0 : ℝ) ≤ (1 : ℝ) / 2 ∧ (1 : ℝ) / 2 ≤ 1 ∧
    (∃ b, get_transformed_bounds (Shape.Path c1WitnessPath) = some b ∧
      b.min_x ≤ (txPt c1WitnessPath.xform (bezier_point ((1 : ℝ) / 2)
        (((c1WitnessPath.parsed_verts.getD 0 (Vec2.new 0 0)).x : ℝ),
          ((c1WitnessPath.parsed_verts.getD 0 (Vec2.new 0 0)).y : ℝ))
        (((1 : ℚ) : ℝ), ((2 : ℚ) : ℝ)) (((2 : ℚ) : ℝ), ((3 : ℚ) : ℝ))
        (((c1WitnessPath.parsed_verts.getD 1 (Vec2.new 0 0)).x : ℝ),
          ((c1WitnessPath.parsed_verts.getD 1 (Vec2.new 0 0)).y : ℝ)))).1 ∧
      (txPt c1WitnessPath.xform (bezier_point ((1 : ℝ) / 2)
        (((c1WitnessPath.parsed_verts.getD 0 (Vec2.new 0 0)).x : ℝ),
          ((c1WitnessPath.parsed_verts.getD 0 (Vec2.new 0 0)).y : ℝ))
        (((1 : ℚ) : ℝ), ((2 : ℚ) : ℝ)) (((2 : ℚ) : ℝ), ((3 : ℚ) : ℝ))
        (((c1WitnessPath.parsed_verts.getD 1 (Vec2.new 0 0)).x : ℝ),
          ((c1WitnessPath.parsed_verts.getD 1 (Vec2.new 0 0)).y : ℝ)))).1 ≤ b.max_x ∧
      b.min_y ≤ (txPt c1WitnessPath.xform (bezier_point ((1 : ℝ) / 2)
        (((c1WitnessPath.parsed_verts.getD 0 (Vec2.new 0 0)).x : ℝ),
          ((c1WitnessPath.parsed_verts.getD 0 (Vec2.new 0 0)).y : ℝ))
        (((1 : ℚ) : ℝ), ((2 : ℚ) : ℝ)) (((2 : ℚ) : ℝ), ((3 : ℚ) : ℝ))
        (((c1WitnessPath.parsed_verts.getD 1 (Vec2.new 0 0)).x : ℝ),
          ((c1WitnessPath.parsed_verts.getD 1 (Vec2.new 0 0)).y : ℝ)))).2 ∧
      (txPt c1WitnessPath.xform (bezier_point ((1 : ℝ) / 2)
        (((c1WitnessPath.parsed_verts.getD 0 (Vec2.new 0 0)).x : ℝ),
          ((c1WitnessPath.parsed_verts.getD 0 (Vec2.new 0 0)).y : ℝ))
        (((1 : ℚ) : ℝ), ((2 : ℚ) : ℝ)) (((2 : ℚ) : ℝ), ((3 : ℚ) : ℝ))
        (((c1WitnessPath.parsed_verts.getD 1 (Vec2.new 0 0)).x : ℝ),
          ((c1WitnessPath.parsed_verts.getD 1 (Vec2.new 0 0)).y : ℝ)))).2 ≤ b.max_y) := by
  refine ⟨by decide, by decide, by decide, rfl, rfl, rfl, rfl, by decide,
    by norm_num, by norm_num, ?_⟩
  exact bezier_curve_in_bounds c1WitnessPath 0 1 1 2 2 3 ((1 : ℝ) / 2)
    (by decide) (by decide) (by decide) rfl rfl rfl rfl (by decide)
    (by norm_num) (by norm_num)

/-! ## Claim C7: index-based closure detection in generate_path_data -/

/-- Start index of a primitive. -/
def primStart : PathPrimitive → Nat
  | .Line s _ => s
  | .Bezier s _ => s

/-- End index of a primitive. -/
def primEnd : PathPrimitive → Nat
  | .Line _ e => e
  | .Bezier _ e => e

/-- The emitter's validity check: both indices in range. -/
def validPrim (n : Nat) (pr : PathPrimitive) : Bool :=
  decide (primStart pr < n) && decide (primEnd pr < n)

/-- The first move-to vertex index: start index of the first valid primitive. -/
def firstMoveIdx (n : Nat) (prims : List PathPrimitive) : Option Nat :=
  (prims.find? (validPrim n)).map primStart

/-- The last visited vertex index: end index of the last valid primitive. -/
def lastVisitedIdx (n : Nat) : List PathPrimitive → Option Nat
  | [] => none
  | pr :: t =>
    match lastVisitedIdx n t with
    | some k => some k
    | none => if validPrim n pr then some (primEnd pr) else none

lemma digitChar_ne_Z (x : Nat) : digitChar x ≠ 'Z' := by
  unfold digitChar
  split <;> decide

lemma getLast?_fracPart (m : Nat) : (fracPart m).getLast? = some (digitChar (m % 10)) := rfl

lemma append_fmt6_getLast? (s : String) (q : ℚ) :
    ∃ c, (s ++ fmt6 q).data.getLast? = some c ∧ c ≠ 'Z' := by
  refine ⟨digitChar ((round (q * 1000000)).natAbs % 1000000 % 10), ?_, digitChar_ne_Z _⟩
  rw [String.data_append]
  unfold fmt6
  simp only [String.data_append]
  rw [show ∀ l : List Char, (String.mk l).data = l from fun _ => rfl]
  rw [← List.append_assoc, ← List.append_assoc, ← List.append_assoc]
  rw [List.getLast?_append_of_ne_nil _ (by simp [fracPart])]
  exact getLast?_fracPart _

/-- The healthy-state invariant of the emitter loop: no move-to yet means
nothing emitted, and once something is emitted the string ends in a digit
(never in `Z`). -/
def okState (st : EmitState) : Prop :=
  (st.first_move_to_idx = none → st.current_last_idx = none ∧ st.d = "") ∧
  (st.first_move_to_idx ≠ none → ∃ c, st.d.data.getLast? = some c ∧ c ≠ 'Z')

lemma stepPrim_first (verts : List Vec2) (st : EmitState) (pr : PathPrimitive) :
    (stepPrim verts st pr).first_move_to_idx =
      if validPrim verts.length pr then updFirst (primStart pr) st
      else st.first_move_to_idx := by
  cases pr with
  | Line a b =>
    simp only [stepPrim, validPrim, primStart, primEnd]
    split <;> rfl
  | Bezier a b =>
    simp only [stepPrim, validPrim, primStart, primEnd]
    split
    · split <;> rfl
    · rfl

lemma stepPrim_last (verts : List Vec2) (st : EmitState) (pr : PathPrimitive) :
    (stepPrim verts st pr).current_last_idx =
      if validPrim verts.length pr then some (primEnd pr)
      else st.current_last_idx := by
  cases pr with
  | Line a b =>
    simp only [stepPrim, validPrim, primStart, primEnd]
    split <;> rfl
  | Bezier a b =>
    simp only [stepPrim, validPrim, primStart, primEnd]
    split
    · split <;> rfl
    · rfl

lemma stepPrim_ok (verts : List Vec2) (st : EmitState) (pr : PathPrimitive)
    (h : okState st) : okState (stepPrim verts st pr) := by
  have hfirst := stepPrim_first verts st pr
  cases hv : validPrim verts.length pr with
  | false =>
    have : stepPrim verts st pr = st := by
      cases pr with
      | Line a b =>
        simp only [stepPrim]
        rw [show (decide (a < verts.length) && decide (b < verts.length)) =
          validPrim verts.length (.Line a b) from rfl, hv]
        rfl
      | Bezier a b =>
        simp only [stepPrim]
        rw [show (decide (a < verts.length) && decide (b < verts.length)) =
          validPrim verts.length (.Bezier a b) from rfl, hv]
        rfl
    rw [this]
    exact h
  | true =>
    constructor
    · intro hnone
      rw [hfirst, hv] at hnone
      simp only [if_true] at hnone
      unfold updFirst at hnone
      split at hnone <;> simp_all
    · intro _
      have hd : ∃ c, (stepPrim verts st pr).d.data.getLast? = some c ∧ c ≠ 'Z' := by
        cases pr with
        | Line a b =>
          simp only [stepPrim]
          rw [show (decide (a < verts.length) && decide (b < verts.length)) =
            validPrim verts.length (.Line a b) from rfl, hv]
          simp only [if_true, emitLineSeg]
          exact append_fmt6_getLast? _ _
        | Bezier a b =>
          simp only [stepPrim]
          rw [show (decide (a < verts.length) && decide (b < verts.length)) =
            validPrim verts.length (.Bezier a b) from rfl, hv]
          simp only [if_true]
          split
          · simp only [emitLineSeg]
            exact append_fmt6_getLast? _ _
          · exact append_fmt6_getLast? _ _
      exact hd

lemma foldl_stepPrim_first (verts : List Vec2) :
    ∀ (prims : List PathPrimitive) (st : EmitState),
      (prims.foldl (stepPrim verts) st).first_move_to_idx =
        match st.first_move_to_idx with
        | some k => some k
        | none => firstMoveIdx verts.length prims
  | [], st => by
    cases h : st.first_move_to_idx <;> simp [firstMoveIdx, h]
  | pr :: t, st => by
    rw [List.foldl_cons, foldl_stepPrim_first verts t (stepPrim verts st pr)]
    rw [stepPrim_first]
    cases hv : validPrim verts.length pr with
    | false =>
      simp only [Bool.false_eq_true, if_false]
      cases h : st.first_move_to_idx with
      | some k => rfl
      | none =>
        simp [firstMoveIdx, List.find?_cons, hv]
    | true =>
      simp only [if_true]
      unfold updFirst
      cases h : st.first_move_to_idx with
      | some k => simp [h]
      | none =>
        simp only [h, Option.isNone_none, if_true]
        simp [firstMoveIdx, List.find?_cons, hv]

lemma foldl_stepPrim_last (verts : List Vec2) :
    ∀ (prims : List PathPrimitive) (st : EmitState),
      (prims.foldl (stepPrim verts) st).current_last_idx =
        match lastVisitedIdx verts.length prims with
        | some k => some k
        | none => st.current_last_idx
  | [], st => by simp [lastVisitedIdx]
  | pr :: t, st => by
    rw [List.foldl_cons, foldl_stepPrim_last verts t (stepPrim verts st pr)]
    rw [stepPrim_last]
    show _ = (match lastVisitedIdx verts.length (pr :: t) with
      | some k => some k
      | none => st.current_last_idx)
    rw [lastVisitedIdx]
    cases hlv : lastVisitedIdx verts.length t with
    | some k => rfl
    | none =>
      cases hv : validPrim verts.length pr <;> simp

lemma foldl_stepPrim_ok (verts : List Vec2) :
    ∀ (prims : List PathPrimitive) (st : EmitState),
      okState st → okState (prims.foldl (stepPrim verts) st)
  | [], _, h => h
  | pr :: t, st, h =>
    foldl_stepPrim_ok verts t (stepPrim verts st pr) (stepPrim_ok verts st pr h)

/-- C7: for a path with explicit primitives (`prim_list ≠ "LineClosed"`), the
emitted `d` string ends with `Z` if and only if the first move-to vertex index
(start of the first valid primitive) equals the last visited vertex index (end
of the last valid primitive) — closure detection is purely index-based, never
coordinate-based. -/
theorem generate_path_data_closure (p : Path) (hlc : p.prim_list ≠ "LineClosed") :
    (generate_path_data p).data.getLast? = some 'Z' ↔
      (∃ k, firstMoveIdx p.parsed_verts.length p.parsed_primitives = some k ∧
        lastVisitedIdx p.parsed_verts.length p.parsed_primitives = some k) := by
  have hbeq : (p.prim_list == "LineClosed") = false := by
    simpa using hlc
  unfold generate_path_data
  rw [hbeq]
  simp only [Bool.false_eq_true, if_false]
  by_cases hemp : (p.parsed_primitives.isEmpty || p.parsed_verts.isEmpty) = true
  · rw [if_pos hemp]
    constructor
    · intro h
      simp at h
    · rintro ⟨k, hk1, _⟩
      rcases Bool.or_eq_true_iff.mp hemp with h | h
      · rw [List.isEmpty_iff] at h
        rw [firstMoveIdx, h] at hk1
        simp at hk1
      · rw [List.isEmpty_iff] at h
        have hnone : p.parsed_primitives.find? (validPrim p.parsed_verts.length) = none := by
          rw [List.find?_eq_none]
          intro pr _
          rw [h]
          simp [validPrim]
        rw [firstMoveIdx, hnone] at hk1
        simp at hk1
  · rw [if_neg hemp]
    have hfirst := foldl_stepPrim_first p.parsed_verts p.parsed_primitives ⟨"", none, none⟩
    have hlast := foldl_stepPrim_last p.parsed_verts p.parsed_primitives ⟨"", none, none⟩
    have hok := foldl_stepPrim_ok p.parsed_verts p.parsed_primitives ⟨"", none, none⟩
      ⟨fun _ => ⟨rfl, rfl⟩, fun hne => absurd rfl hne⟩
    set st := p.parsed_primitives.foldl (stepPrim p.parsed_verts) ⟨"", none, none⟩ with hst
    simp only at hfirst hlast
    cases hf : st.first_move_to_idx with
    | none =>
      obtain ⟨hl, hd⟩ := hok.1 hf
      rw [hf] at hfirst
      rw [hl, hd]
      constructor
      · intro h
        simp at h
      · rintro ⟨k, hk1, _⟩
        rw [← hfirst] at hk1
        exact Option.noConfusion hk1
    | some f =>
      obtain ⟨c, hc, hcz⟩ := hok.2 (by rw [hf]; exact Option.noConfusion)
      have hdne : st.d.isEmpty = false := by
        cases hde : st.d.isEmpty with
        | false => rfl
        | true =>
          exfalso
          have hde2 : st.d = "" := (String.isEmpty_iff st.d).mp hde
          rw [hde2] at hc
          exact Option.noConfusion hc
      cases hl : st.current_last_idx with
      | none =>
        show st.d.data.getLast? = some 'Z' ↔ _
        constructor
        · intro h
          rw [hc] at h
          exact absurd (Option.some.inj h) hcz
        · rintro ⟨k, hk1, hk2⟩
          cases hlv : lastVisitedIdx p.parsed_verts.length p.parsed_primitives with
          | none => rw [hlv] at hk2; exact Option.noConfusion hk2
          | some j =>
            rw [hlv] at hlast
            rw [hlast] at hl
            exact Option.noConfusion hl
      | some l =>
        show (if (f == l && !st.d.isEmpty) = true then st.d.push 'Z' else st.d).data.getLast?
            = some 'Z' ↔ _
        by_cases hfl : f = l
        · subst hfl
          rw [hdne]
          simp only [beq_self_eq_true, Bool.not_false, Bool.and_self, if_true]
          constructor
          · intro _
            refine ⟨f, ?_, ?_⟩
            · rw [← hfirst, hf]
            · cases hlv : lastVisitedIdx p.parsed_verts.length p.parsed_primitives with
              | none =>
                rw [hlv] at hlast
                rw [hlast] at hl
                exact Option.noConfusion hl
              | some j =>
                rw [hlv] at hlast
                rw [hlast] at hl
                rw [← Option.some.inj hl]
          · intro _
            rw [String.data_push]
            rw [List.getLast?_append_of_ne_nil _ (by simp)]
            rfl
        · have hbf : (f == l) = false := by simpa using hfl
          rw [hbf]
          simp only [Bool.false_and, Bool.false_eq_true, if_false]
          constructor
          · intro h
            rw [hc] at h
            exact absurd (Option.some.inj h) hcz
          · rintro ⟨k, hk1, hk2⟩
            rw [← hfirst] at hk1
            rw [hf] at hk1
            cases hlv : lastVisitedIdx p.parsed_verts.length p.parsed_primitives with
            | none =>
              rw [hlv] at hlast
              rw [hlast] at hl
              exact Option.noConfusion hl
            | some j =>
              rw [hlv] at hlast
              rw [hlast] at hl
              have hjl := Option.some.inj hl
              have hfk := Option.some.inj hk1
              rw [hlv] at hk2
              have hjk := Option.some.inj hk2
              exact absurd (hfk.trans (hjk.symm.trans hjl)) hfl

/-- Witness for C7 on a two-segment chain `0→1→0`, which closes (first move-to
index `0` equals last end index `0`). -/
theorem generate_path_data_closure_witness :
    (Path.mk 0 XForm.identity "" "L0 1 L1 0" [Vec2.new 0 0, Vec2.new 1 1]
        [.Line 0 1, .Line 1 0]).prim_list ≠ "LineClosed" ∧
    ((generate_path_data (Path.mk 0 XForm.identity "" "L0 1 L1 0"
        [Vec2.new 0 0, Vec2.new 1 1] [.Line 0 1, .Line 1 0])).data.getLast? = some 'Z' ↔
      (∃ k, firstMoveIdx 2 [PathPrimitive.Line 0 1, PathPrimitive.Line 1 0] = some k ∧
        lastVisitedIdx 2 [PathPrimitive.Line 0 1, PathPrimitive.Line 1 0] = some k)) := by
  refine ⟨by decide, ?_⟩
  exact generate_path_data_closure _ (by decide)

/-! ## Claim C3: vertex tokens with bad numerals -/

lemma dropWhile_until_V (l : List Char) :
    l.dropWhile (fun c => c != 'V') = [] ∨
    ∃ t, l.dropWhile (fun c => c != 'V') = 'V' :: t := by
  induction l with
  | nil => exact Or.inl rfl
  | cons a t ih =>
    rw [List.dropWhile_cons]
    by_cases h : a = 'V'
    · subst h
      simp
    · have hb : (a != 'V') = true := by simpa using h
      rw [if_pos hb]
      exact ih

/-- C3 counterexample: in `"V. 5"` the x numeral `"."` is nonempty but
malformed (`parse::<f64>` fails on it), yet the vertex is not dropped: the
code substitutes the `unwrap_or(0.0)` default and emits the vertex `(0, 5)`. -/
theorem parse_vert_list_counterexample :
    rustParseFloat "." = none ∧
    parse_vert_list "V. 5" = [Vec2.with_control_points 0 5 none none none none] := by
  have hdot : rustParseFloatParts (String.mk ['.']) = none := by decide
  have hdotf : rustParseFloat (String.mk ['.']) = none := by simp [rustParseFloat, hdot]
  have h5 : rustParseFloat (String.mk ['5']) = some ((5 : Nat) : ℚ) :=
    rustParseFloat_nat _ ['5'] _ (by decide) (by decide)
  refine ⟨hdotf, ?_⟩
  rw [parse_vert_list]
  rw [show ("V. 5" : String).data = ['V', '.', ' ', '5'] from rfl]
  rw [pvGo]
  simp +decide [hdotf, h5, parse_control_point_data, startsWithC, cpGo, trimChars,
    List.dropWhile, List.takeWhile, isNumChar, pvGo, Vec2.with_control_points]

/-- C3 amended: a vertex token whose x or y numeral string is empty (missing)
produces no vertex and decoding continues at the next `V` (or the end); but a
nonempty malformed numeral is not dropped — it is substituted with the
`unwrap_or(0.0)` default (see the counterexample). -/
theorem parse_vert_list_missing_numeral (rest : List Char)
    (h : ((rest.dropWhile Char.isWhitespace).takeWhile isNumChar).isEmpty = true ∨
      ((((rest.dropWhile Char.isWhitespace).dropWhile isNumChar).dropWhile
          Char.isWhitespace).takeWhile isNumChar).isEmpty = true) :
    pvGo ('V' :: rest) =
      pvGo (((((rest.dropWhile Char.isWhitespace).dropWhile isNumChar).dropWhile
          Char.isWhitespace).dropWhile isNumChar).dropWhile (fun c => c != 'V')) ∧
    (((((rest.dropWhile Char.isWhitespace).dropWhile isNumChar).dropWhile
          Char.isWhitespace).dropWhile isNumChar).dropWhile (fun c => c != 'V') = [] ∨
      ∃ t, ((((rest.dropWhile Char.isWhitespace).dropWhile isNumChar).dropWhile
          Char.isWhitespace).dropWhile isNumChar).dropWhile (fun c => c != 'V') =
        'V' :: t) := by
  constructor
  · rw [pvGo]
    have hw : ('V'.isWhitespace) = false := by decide
    have hv : ('V' == 'V') = true := by decide
    rw [hw]
    simp only [Bool.false_eq_true, if_false, hv, if_true]
    rcases h with h | h
    · rw [h]
      simp
    · rw [h]
      simp
  · exact dropWhile_until_V _

/-- Witness for the C3 amended theorem on `"VzV7 8"`: the first token's x
numeral is empty (the scanner stops at `z`), so the first token is dropped and
decoding resumes at the second `V`. -/
theorem parse_vert_list_missing_numeral_witness :
    ((("zV7 8".data).dropWhile Char.isWhitespace).takeWhile isNumChar).isEmpty = true ∧
    pvGo ('V' :: "zV7 8".data) =
      pvGo (((((("zV7 8".data).dropWhile Char.isWhitespace).dropWhile
          isNumChar).dropWhile Char.isWhitespace).dropWhile isNumChar).dropWhile
        (fun c => c != 'V')) := by
  refine ⟨by decide, ?_⟩
  exact (parse_vert_list_missing_numeral "zV7 8".data (Or.inl (by decide))).1

/-! ## Claim C9: cut settings carry no color from the input -/

lemma applyProjectAttr_cut_settings (p : LightBurnProject) (kv : String × String) :
    (applyProjectAttr p kv).cut_settings = p.cut_settings := by
  unfold applyProjectAttr
  split
  · rfl
  · split <;> rfl

lemma applyProjectAttr_shapes (p : LightBurnProject) (kv : String × String) :
    (applyProjectAttr p kv).shapes = p.shapes := by
  unfold applyProjectAttr
  split
  · rfl
  · split <;> rfl

lemma foldl_applyProjectAttr_cut_settings :
    ∀ (attrs : List (String × String)) (p : LightBurnProject),
      (attrs.foldl applyProjectAttr p).cut_settings = p.cut_settings
  | [], _ => rfl
  | kv :: t, p => by
    rw [List.foldl_cons, foldl_applyProjectAttr_cut_settings t, applyProjectAttr_cut_settings]

lemma foldl_applyProjectAttr_shapes :
    ∀ (attrs : List (String × String)) (p : LightBurnProject),
      (attrs.foldl applyProjectAttr p).shapes = p.shapes
  | [], _ => rfl
  | kv :: t, p => by
    rw [List.foldl_cons, foldl_applyProjectAttr_shapes t, applyProjectAttr_shapes]

/-- The invariant C9 asserts of every accumulated cut setting. -/
def plainCutSetting (x : CutSetting) : Prop :=
  x.name = "" ∧ x.color = none ∧ x.stroke_width = none

lemma parseTopLoop_cut_settings :
    ∀ (fuel : Nat) (proj : LightBurnProject) (c : Caches) (evs : List XmlEvent),
      (∀ x ∈ proj.cut_settings, plainCutSetting x) →
      ∀ x ∈ (parseTopLoop fuel proj c evs).cut_settings, plainCutSetting x
  | 0, proj, c, evs, h => by rw [parseTopLoop.eq_def]; exact h
  | _ + 1, proj, c, [], h => by rw [parseTopLoop.eq_def]; exact h
  | fuel + 1, proj, c, ev :: rest, h => by
    show ∀ x ∈ (parseTopLoop (Nat.succ fuel) proj c (ev :: rest)).cut_settings, plainCutSetting x
    rw [parseTopLoop.eq_def]
    cases ev with
    | start name attrs =>
      dsimp only
      by_cases h1 : (name == "LightBurnProject") = true
      · rw [if_pos h1]
        refine parseTopLoop_cut_settings fuel _ c rest ?_
        rw [foldl_applyProjectAttr_cut_settings]
        exact h
      · rw [if_neg h1]
        by_cases h2 : (name == "CutSetting") = true
        · rw [if_pos h2]
          rcases hcs : parseCutSettingInner fuel 0 1 rest with ⟨idx, rest2⟩
          refine parseTopLoop_cut_settings fuel _ c rest2 ?_
          intro x hx
          rcases List.mem_append.mp hx with hx | hx
          · exact h x hx
          · rw [List.mem_singleton.mp hx]
            exact ⟨rfl, rfl, rfl⟩
        · rw [if_neg h2]
          by_cases h3 : (name == "Shape") = true
          · rw [if_pos h3]
            rcases hsi : parseShapeInner fuel (readShapeAttrs attrs) rest c with ⟨sh, rest2, c2⟩
            cases sh with
            | some s => exact parseTopLoop_cut_settings fuel _ c2 rest2 h
            | none => exact parseTopLoop_cut_settings fuel _ c2 rest2 h
          · rw [if_neg h3]
            exact parseTopLoop_cut_settings fuel _ c rest h
    | empty name attrs =>
      dsimp only
      by_cases h1 : (name == "Shape") = true
      · rw [if_pos h1]
        cases hse : parse_shape_from_empty_element attrs with
        | some s => exact parseTopLoop_cut_settings fuel _ c rest h
        | none => exact parseTopLoop_cut_settings fuel _ c rest h
      · rw [if_neg h1]
        exact parseTopLoop_cut_settings fuel _ c rest h
    | text s => exact parseTopLoop_cut_settings fuel _ c rest h
    | endTag tag => exact parseTopLoop_cut_settings fuel _ c rest h

lemma DEFAULT_COLORS_getD_mem (k : Nat) (hk : k < 8) :
    DEFAULT_COLORS.getD k "#000000" ∈ DEFAULT_COLORS := by
  interval_cases k <;> decide

/-- C9: every cut setting produced by `parse_lbrn2_complete` has an empty
name, no color and no stroke width (only the index is read from the XML), and
consequently the emitted stroke color of any shape styled against such a table
is always one of the eight fixed palette entries (black `#000000` is palette
entry 0) — never a color from the input file. -/
theorem cut_settings_plain_and_palette :
    (∀ (fuel : Nat) (evs : List XmlEvent) (x : CutSetting),
      x ∈ (parse_lbrn2_complete fuel evs).cut_settings →
      x.name = "" ∧ x.color = none ∧ x.stroke_width = none) ∧
    (∀ (i : Int) (l : List CutSetting), (∀ cs ∈ l, cs.color = none) →
      ∃ col ∈ DEFAULT_COLORS, ∃ w,
        get_cut_setting_style i (some l) =
          "stroke:" ++ col ++ ";stroke-width:" ++ w ++ ";fill:none") := by
  constructor
  · intro fuel evs x hx
    exact parseTopLoop_cut_settings fuel _ _ evs (by intro y hy; cases hy) x hx
  · intro i l hl
    by_cases he : l.isEmpty
    · refine ⟨"#000000", by decide, "0.050000mm", ?_⟩
      simp only [get_cut_setting_style, he, if_true]
      decide
    · have hne : l.isEmpty = false := by
        cases hh : l.isEmpty
        · rfl
        · exact absurd hh he
      cases hf : l.find? (fun c => c.index == i) with
      | none =>
        refine ⟨"#000000", by decide, "0.050000mm", ?_⟩
        simp only [get_cut_setting_style, hne, Bool.false_eq_true, if_false, hf,
          Option.none_bind, Option.getD_none]
      | some cs =>
        have hcol : cs.color = none := hl cs (List.mem_of_find?_eq_some hf)
        refine ⟨DEFAULT_COLORS.getD (if 0 ≤ cs.index then cs.index.toNat % 8 else 0) "#000000",
          ?_, cs.stroke_width.getD "0.050000mm", ?_⟩
        · by_cases hpos : 0 ≤ cs.index
          · rw [if_pos hpos]
            exact DEFAULT_COLORS_getD_mem _ (Nat.mod_lt _ (by norm_num))
          · rw [if_neg hpos]
            exact DEFAULT_COLORS_getD_mem 0 (by norm_num)
        · simp only [get_cut_setting_style, hne, Bool.false_eq_true, if_false, hf, hcol,
            Option.some_bind]

/-- Witness for C9 on a one-`CutSetting` stream and an all-`none` table. -/
theorem cut_settings_plain_and_palette_witness :
    (⟨5, "", none, none⟩ : CutSetting) ∈
      (parse_lbrn2_complete (Nat.succ (Nat.succ (Nat.succ 0)))
        [XmlEvent.start "CutSetting" [],
          XmlEvent.empty "index" [("Value", "5")],
          XmlEvent.endTag "CutSetting"]).cut_settings ∧
    (⟨5, "", none, none⟩ : CutSetting).name = "" ∧
    (∀ cs ∈ [(⟨-1, "", none, none⟩ : CutSetting)], cs.color = none) ∧
    (∃ col ∈ DEFAULT_COLORS, ∃ w,
      get_cut_setting_style (-1) (some [⟨-1, "", none, none⟩]) =
        "stroke:" ++ col ++ ";stroke-width:" ++ w ++ ";fill:none") := by
  refine ⟨?_, ?_, ?_, ?_⟩
  · have hx := (cut_settings_plain_and_palette).1 (Nat.succ (Nat.succ (Nat.succ 0)))
      [XmlEvent.start "CutSetting" [], XmlEvent.empty "index" [("Value", "5")],
        XmlEvent.endTag "CutSetting"]
    show _ ∈ _
    rw [show (parse_lbrn2_complete (Nat.succ (Nat.succ (Nat.succ 0)))
      [XmlEvent.start "CutSetting" [], XmlEvent.empty "index" [("Value", "5")],
        XmlEvent.endTag "CutSetting"]).cut_settings = [⟨5, "", none, none⟩] from rfl]
    exact List.mem_singleton.mpr rfl
  · rfl
  · intro cs hcs
    rw [List.mem_singleton.mp hcs]
  · exact (cut_settings_plain_and_palette).2 (-1) [⟨-1, "", none, none⟩]
      (by intro cs hcs; rw [List.mem_singleton.mp hcs])

/-! ## Claim C10: self-closing Shape elements -/

lemma applyEmptyAttr_skip (st : EmptyAttrs) (kv : String × String)
    (h : (kv.1 == "VertID" || kv.1 == "PrimID" || kv.1 == "Data") = true) :
    applyEmptyAttr st kv = st := by
  rcases kv with ⟨k, v⟩
  simp only [Bool.or_eq_true, beq_iff_eq] at h
  rcases h with (h | h) | h <;> subst h <;> rfl

lemma foldl_filter_of_skip {α β : Type} (f : β → α → β) (p : α → Bool)
    (h : ∀ st kv, p kv = false → f st kv = st) :
    ∀ (l : List α) (st : β), l.foldl f st = (l.filter p).foldl f st
  | [], _ => rfl
  | kv :: t, st => by
    rw [List.foldl_cons, List.filter_cons]
    cases hp : p kv with
    | true =>
      rw [if_pos rfl]
      rw [List.foldl_cons]
      exact foldl_filter_of_skip f p h t (f st kv)
    | false =>
      simp only [Bool.false_eq_true, if_false]
      rw [h st kv hp]
      exact foldl_filter_of_skip f p h t st

/-- C10: a self-closing `<Shape .../>` yields a shape only when its `Type` is
`Rect` or `Ellipse`, always with the identity transform; any `VertID`,
`PrimID` or `Data` attribute is ignored (filtering them out does not change
the result); and a self-closing element of any other `Type` (`Path`, `Group`,
`Bitmap`, unknown) yields no shape. -/
theorem empty_element_behavior :
    (∀ (attrs : List (String × String)) (s : Shape),
      parse_shape_from_empty_element attrs = some s →
      ((emptyAttrsOf attrs).shape_type = "Rect" ∨
        (emptyAttrsOf attrs).shape_type = "Ellipse") ∧
      s.xform = XForm.identity) ∧
    (∀ attrs : List (String × String),
      (emptyAttrsOf attrs).shape_type ≠ "Rect" →
      (emptyAttrsOf attrs).shape_type ≠ "Ellipse" →
      parse_shape_from_empty_element attrs = none) ∧
    (∀ attrs : List (String × String),
      parse_shape_from_empty_element attrs =
      parse_shape_from_empty_element (attrs.filter
        (fun kv => !(kv.1 == "VertID" || kv.1 == "PrimID" || kv.1 == "Data")))) := by
  refine ⟨?_, ?_, ?_⟩
  · intro attrs s hs
    unfold parse_shape_from_empty_element at hs
    split at hs
    · exact ⟨Or.inl (by assumption), by cases hs; rfl⟩
    · exact ⟨Or.inr (by assumption), by cases hs; rfl⟩
    · exact absurd hs (by simp)
  · intro attrs h1 h2
    unfold parse_shape_from_empty_element
    split
    · exact absurd (by assumption) h1
    · exact absurd (by assumption) h2
    · rfl
  · intro attrs
    unfold parse_shape_from_empty_element emptyAttrsOf
    rw [← foldl_filter_of_skip applyEmptyAttr _ ?_ attrs]
    intro st kv hkv
    apply applyEmptyAttr_skip
    cases hX : (kv.1 == "VertID" || kv.1 == "PrimID" || kv.1 == "Data") with
    | true => rfl
    | false =>
      rw [hX] at hkv
      simp at hkv

/-- Witness for C10 at `[("Type","Rect"),("VertID","3")]`. -/
theorem empty_element_behavior_witness :
    parse_shape_from_empty_element [("Type", "Rect"), ("VertID", "3")] =
      some (Shape.Rect ⟨0, XForm.identity, 0, 0, 0⟩) ∧
    (emptyAttrsOf [("Type", "Rect"), ("VertID", "3")]).shape_type = "Rect" ∧
    (Shape.Rect ⟨0, XForm.identity, 0, 0, 0⟩).xform = XForm.identity := by
  refine ⟨rfl, rfl, ?_⟩
  exact (empty_element_behavior.1 [("Type", "Rect"), ("VertID", "3")]
    (Shape.Rect ⟨0, XForm.identity, 0, 0, 0⟩) rfl).2

/-! ## Claim C5: shape-tree invariants of the parser -/

mutual

/-- The C5 tree invariant: every `Group` in the tree has at least one child
(recursively well-formed) and every `Path` has at least one resolved vertex. -/
def shapeOk : Shape → Bool
  | .Rect _ => true
  | .Ellipse _ => true
  | .Path p => !p.parsed_verts.isEmpty
  | .Bitmap _ => true
  | .Group _ _ children => !children.isEmpty && allOk children

/-- `shapeOk` for every member of a list. -/
def allOk : List Shape → Bool
  | [] => true
  | c :: rest => shapeOk c && allOk rest

end

/-- `shapeOk` lifted to an optional shape. -/
def optOk : Option Shape → Bool
  | none => true
  | some s => shapeOk s

lemma allOk_append (l : List Shape) (s : Shape) (hl : allOk l = true)
    (hs : shapeOk s = true) : allOk (l ++ [s]) = true := by
  induction l with
  | nil =>
    rw [List.nil_append, allOk, hs, allOk]
    rfl
  | cons c t ih =>
    rw [allOk] at hl
    rcases Bool.and_eq_true_iff.mp hl with ⟨h1, h2⟩
    rw [List.cons_append, allOk, h1, ih h2]
    rfl

lemma empty_element_ok (attrs : List (String × String)) :
    optOk (parse_shape_from_empty_element attrs) = true := by
  unfold parse_shape_from_empty_element
  split
  · rw [optOk, shapeOk]
  · rw [optOk, shapeOk]
  · rfl

set_option maxHeartbeats 1000000 in
lemma finishShape_ok (a : ShapeAttrs) (st : ShapeParseState) (c : Caches)
    (hch : allOk st.children = true) (hbp : optOk st.backup_path_shape = true) :
    optOk (finishShape a st c).1 = true := by
  unfold finishShape
  split
  · exact hbp
  · lift_lets
    extract_lets rv vc rp pc c2
    split
    · dsimp only
      rw [optOk, shapeOk]
    · split
      · dsimp only
        rw [optOk, shapeOk]
      · split
        · split
          · rfl
          · rename_i h5
            rw [Bool.not_eq_true] at h5
            dsimp only
            rw [optOk, shapeOk]
            dsimp only
            rw [h5]
            rfl
        · split
          · dsimp only
            rw [optOk, shapeOk]
          · split
            · split
              · rfl
              · rename_i h7
                rw [Bool.not_eq_true] at h7
                dsimp only
                rw [optOk, shapeOk]
                try dsimp only
                rw [h7, hch]
                rfl
            · rfl

lemma optOk_ite (cond : Bool) (x y : Option Shape) (hx : optOk x = true)
    (hy : optOk y = true) : optOk (if cond then x else y) = true := by
  cases cond <;> simp [hx, hy]

lemma allOk_ite (cond : Bool) (x y : List Shape) (hx : allOk x = true)
    (hy : allOk y = true) : allOk (if cond then x else y) = true := by
  cases cond <;> simp [hx, hy]

lemma optOk_matchBackup (dflt : Option Shape) (hd : optOk dflt = true) :
    ∀ (o : Option Shape), optOk o = true →
      optOk (match o with | some b => some b | none => dflt) = true
  | some _, ho => ho
  | none, _ => hd

lemma optOk_matchBackup2 (dflt : Option Shape) (hd : optOk dflt = true) (cond : Bool) :
    ∀ (o : Option Shape), optOk o = true →
      optOk (match o with
        | some ch => if cond then some ch else dflt
        | none => dflt) = true
  | some ch, ho => optOk_ite cond (some ch) dflt ho hd
  | none, _ => hd

lemma allOk_matchChildren (l : List Shape) (hl : allOk l = true) (cond : Bool) :
    ∀ (o : Option Shape), optOk o = true →
      allOk (match o with
        | some ch => if cond then l ++ [ch] else l
        | none => l) = true
  | some ch, ho => allOk_ite cond (l ++ [ch]) l (allOk_append l ch hl ho) hl
  | none, _ => hl

lemma parseShapeLoop_ok :
    ∀ (fuel : Nat) (a : ShapeAttrs) (st : ShapeParseState) (depth : Nat)
      (evs : List XmlEvent) (c : Caches),
      allOk st.children = true → optOk st.backup_path_shape = true →
      optOk (parseShapeLoop fuel a st depth evs c).1 = true
  | 0, _, _, _, _, _, _, _ => rfl
  | fuel + 1, a, st, depth, [], c, hch, hbp => by
    have h := finishShape_ok a st c hch hbp
    show optOk (parseShapeLoop (Nat.succ fuel) a st depth [] c).1 = true
    rw [parseShapeLoop.eq_def]
    dsimp only
    rcases hfs : finishShape a st c with ⟨sh, c2⟩
    rw [hfs] at h
    exact h
  | fuel + 1, a, st, depth, ev :: rest, c, hch, hbp => by
    show optOk (parseShapeLoop (Nat.succ fuel) a st depth (ev :: rest) c).1 = true
    rw [parseShapeLoop.eq_def]
    cases ev with
    | start tag attrs =>
      dsimp only
      by_cases h1 : (tag == "Children") = true
      · rw [if_pos h1]
        exact parseShapeLoop_ok fuel a _ (depth + 1) rest c hch hbp
      · rw [if_neg h1]
        by_cases h2 : (tag == "BackupPath") = true
        · rw [if_pos h2]
          rcases hbpl : parseShapeLoop fuel (readShapeAttrs attrs)
              (initShapeState (readShapeAttrs attrs)) 1 rest c with ⟨bp, rest2, c2⟩
          have hbp2 : optOk bp = true := by
            have h := parseShapeLoop_ok fuel (readShapeAttrs attrs)
              (initShapeState (readShapeAttrs attrs)) 1 rest c rfl rfl
            rw [hbpl] at h
            exact h
          try dsimp only
          exact parseShapeLoop_ok fuel a _ depth rest2 c2 hch
            (optOk_matchBackup st.backup_path_shape hbp bp hbp2)
        · rw [if_neg h2]
          by_cases h3 : (tag == "Shape") = true
          · rw [if_pos h3]
            rcases hcl : parseShapeLoop fuel (readShapeAttrs attrs)
                (initShapeState (readShapeAttrs attrs)) 1 rest c with ⟨child, rest2, c2⟩
            have hc2 : optOk child = true := by
              have h := parseShapeLoop_ok fuel (readShapeAttrs attrs)
                (initShapeState (readShapeAttrs attrs)) 1 rest c rfl rfl
              rw [hcl] at h
              exact h
            try dsimp only
            exact parseShapeLoop_ok fuel a _ depth rest2 c2
              (allOk_matchChildren st.children hch _ child hc2)
              (optOk_matchBackup2 st.backup_path_shape hbp _ child hc2)
          · rw [if_neg h3]
            exact parseShapeLoop_ok fuel a _ (depth + 1) rest c hch hbp
    | empty tag attrs =>
      dsimp only
      by_cases h1 : (tag == "Shape") = true
      · rw [if_pos h1]
        cases hse : parse_shape_from_empty_element attrs with
        | some ch =>
          have hok : shapeOk ch = true := by
            have h := empty_element_ok attrs
            rw [hse] at h
            exact h
          exact parseShapeLoop_ok fuel a _ depth rest c
            (allOk_ite _ _ _ (allOk_append _ _ hch hok) hch)
            (optOk_ite _ _ _ hok hbp)
        | none => exact parseShapeLoop_ok fuel a st depth rest c hch hbp
      · rw [if_neg h1]
        exact parseShapeLoop_ok fuel a st depth rest c hch hbp
    | text s =>
      dsimp only
      have hch2 : allOk (applyTextNode st s).children = true := by
        unfold applyTextNode
        split
        · exact hch
        · split
          · exact hch
          · split
            · exact hch
            · split
              · exact hch
              · exact hch
      have hbp2 : optOk (applyTextNode st s).backup_path_shape = true := by
        unfold applyTextNode
        split
        · exact hbp
        · split
          · exact hbp
          · split
            · exact hbp
            · split
              · exact hbp
              · exact hbp
      exact parseShapeLoop_ok fuel a _ depth rest c hch2 hbp2
    | endTag tag =>
      dsimp only
      by_cases hd : depth = 1
      · rw [if_pos hd]
        have h := finishShape_ok a
          { st with
            in_children := if tag == "Children" then false else st.in_children
            in_backup_path := if tag == "BackupPath" then false else st.in_backup_path
            current_tag := "" } c hch hbp
        rcases hfs : finishShape a
          { st with
            in_children := if tag == "Children" then false else st.in_children
            in_backup_path := if tag == "BackupPath" then false else st.in_backup_path
            current_tag := "" } c with ⟨sh, c2⟩
        rw [hfs] at h
        exact h
      · rw [if_neg hd]
        exact parseShapeLoop_ok fuel a _ (depth - 1) rest c hch hbp

lemma parseTopLoop_shapes :
    ∀ (fuel : Nat) (proj : LightBurnProject) (c : Caches) (evs : List XmlEvent),
      (∀ x ∈ proj.shapes, shapeOk x = true) →
      ∀ x ∈ (parseTopLoop fuel proj c evs).shapes, shapeOk x = true
  | 0, proj, c, evs, h => by rw [parseTopLoop.eq_def]; exact h
  | _ + 1, proj, c, [], h => by rw [parseTopLoop.eq_def]; exact h
  | fuel + 1, proj, c, ev :: rest, h => by
    show ∀ x ∈ (parseTopLoop (Nat.succ fuel) proj c (ev :: rest)).shapes, shapeOk x = true
    rw [parseTopLoop.eq_def]
    cases ev with
    | start name attrs =>
      dsimp only
      by_cases h1 : (name == "LightBurnProject") = true
      · rw [if_pos h1]
        refine parseTopLoop_shapes fuel _ c rest ?_
        rw [foldl_applyProjectAttr_shapes]
        exact h
      · rw [if_neg h1]
        by_cases h2 : (name == "CutSetting") = true
        · rw [if_pos h2]
          exact parseTopLoop_shapes fuel _ c _ h
        · rw [if_neg h2]
          by_cases h3 : (name == "Shape") = true
          · rw [if_pos h3]
            rcases hsi : parseShapeInner fuel (readShapeAttrs attrs) rest c with ⟨sh, rest2, c2⟩
            have hok : optOk sh = true := by
              have hl := parseShapeLoop_ok fuel (readShapeAttrs attrs)
                (initShapeState (readShapeAttrs attrs)) 1 rest c rfl rfl
              rw [show parseShapeLoop fuel (readShapeAttrs attrs)
                (initShapeState (readShapeAttrs attrs)) 1 rest c =
                parseShapeInner fuel (readShapeAttrs attrs) rest c from rfl, hsi] at hl
              exact hl
            cases sh with
            | some s =>
              refine parseTopLoop_shapes fuel _ c2 rest2 ?_
              intro x hx
              rcases List.mem_append.mp hx with hx | hx
              · exact h x hx
              · rw [List.mem_singleton.mp hx]
                exact hok
            | none => exact parseTopLoop_shapes fuel _ c2 rest2 h
          · rw [if_neg h3]
            exact parseTopLoop_shapes fuel _ c rest h
    | empty name attrs =>
      dsimp only
      by_cases h1 : (name == "Shape") = true
      · rw [if_pos h1]
        cases hse : parse_shape_from_empty_element attrs with
        | some s =>
          have hok : shapeOk s = true := by
            have hh := empty_element_ok attrs
            rw [hse] at hh
            exact hh
          refine parseTopLoop_shapes fuel _ c rest ?_
          intro x hx
          rcases List.mem_append.mp hx with hx | hx
          · exact h x hx
          · rw [List.mem_singleton.mp hx]
            exact hok
        | none => exact parseTopLoop_shapes fuel _ c rest h
      · rw [if_neg h1]
        exact parseTopLoop_shapes fuel _ c rest h
    | text s => exact parseTopLoop_shapes fuel _ c rest h
    | endTag tag => exact parseTopLoop_shapes fuel _ c rest h

/-- C5: in every project produced by the event-stream model of
`parse_lbrn2_complete` (any fuel), every `Group` anywhere in the shape tree
has at least one child and every `Path` has at least one resolved vertex
(`shapeOk`); and a `Path` whose vertex list resolves to a nonempty vertex
sequence is retained regardless of its primitives — in particular also when no
primitive is resolvable. -/
theorem project_shape_invariant :
    (∀ (fuel : Nat) (evs : List XmlEvent) (s : Shape),
      s ∈ (parse_lbrn2_complete fuel evs).shapes → shapeOk s = true) ∧
    (∀ (a : ShapeAttrs) (st : ShapeParseState) (c : Caches),
      a.shape_type = "Path" → st.vert_list.isEmpty = false →
      (parse_vert_list st.vert_list).isEmpty = false →
      ∃ p : Path, (finishShape a st c).1 = some (Shape.Path p) ∧
        p.parsed_verts = parse_vert_list st.vert_list) := by
  constructor
  · intro fuel evs s hs
    exact parseTopLoop_shapes fuel _ _ evs (by intro y hy; cases hy) s hs
  · intro a st c hty hvl hverts
    have hT : (a.shape_type == "Text") = false := by rw [hty]; rfl
    have hR : (a.shape_type == "Rect") = false := by rw [hty]; rfl
    have hE : (a.shape_type == "Ellipse") = false := by rw [hty]; rfl
    have hP : (a.shape_type == "Path") = true := by rw [hty]; rfl
    have hv2 : (!st.vert_list.isEmpty) = true := by rw [hvl]; rfl
    have hrv : (parse_vert_list st.vert_list).isEmpty = false := hverts
    unfold finishShape
    simp only [hT, Bool.false_and, Bool.false_eq_true, if_false, hR, hE, hP, if_true, hv2,
      hrv]
    exact ⟨_, rfl, rfl⟩

/-- Witness for C5: a project with one empty-element `Rect` satisfies the
invariant, and a concrete `Path` state with vertex list `"V1 2"` and the
unresolvable primitive list `"Q"` is retained with no primitives. -/
theorem project_shape_invariant_witness :
    Shape.Rect ⟨0, XForm.identity, 0, 0, 0⟩ ∈
      (parse_lbrn2_complete (Nat.succ 0) [XmlEvent.empty "Shape" [("Type", "Rect")]]).shapes ∧
    shapeOk (Shape.Rect ⟨0, XForm.identity, 0, 0, 0⟩) = true ∧
    (⟨"Path", 0, 0, 0, 0, 0, 0, none, none, false, ""⟩ : ShapeAttrs).shape_type = "Path" ∧
    (⟨XForm.identity, "V1 2", "Q", "", [], none, "", false, false⟩ :
      ShapeParseState).vert_list.isEmpty = false ∧
    (parse_vert_list "V1 2").isEmpty = false ∧
    (∃ p : Path,
      (finishShape ⟨"Path", 0, 0, 0, 0, 0, 0, none, none, false, ""⟩
        ⟨XForm.identity, "V1 2", "Q", "", [], none, "", false, false⟩ ⟨[], []⟩).1 =
        some (Shape.Path p) ∧
      p.parsed_verts = parse_vert_list "V1 2") := by
  have hverts : (parse_vert_list "V1 2").isEmpty = false := by
    rw [parse_vert_list]
    rw [show ("V1 2" : String).data = ['V', '1', ' ', '2'] from rfl]
    rw [pvGo]
    simp +decide [List.dropWhile, List.takeWhile, isNumChar]
  refine ⟨?_, rfl, rfl, by decide, hverts, ?_⟩
  · rw [show (parse_lbrn2_complete (Nat.succ 0)
      [XmlEvent.empty "Shape" [("Type", "Rect")]]).shapes =
      [Shape.Rect ⟨0, XForm.identity, 0, 0, 0⟩] from rfl]
    exact List.mem_singleton.mpr rfl
  · exact project_shape_invariant.2 ⟨"Path", 0, 0, 0, 0, 0, 0, none, none, false, ""⟩
      ⟨XForm.identity, "V1 2", "Q", "", [], none, "", false, false⟩ ⟨[], []⟩
      rfl (by decide) hverts

end Laser
